import Mathlib

/-!
Verification development for the rholang-rs CST-to-AST driver
(`rholang-parser/src/parser/parsing.rs` and friends).

The Rust sources are shallowly embedded: tree-sitter CST nodes become the
`Cst` inductive, the arena-allocated AST (`ast.rs`) becomes the mutual
`Proc` family (arena sharing is irrelevant for values), and the explicit
continuation-stack driver `node_to_ast` / `apply_cont` becomes a
fuel-indexed step machine.  Rust panics (`assert!`, `expect`, `panic!`,
`unreachable!`, `unimplemented!`, slice-index overruns) are modelled by the
`Panic` error monad.
-/

set_option maxRecDepth 10000
set_option maxHeartbeats 3200000

namespace Rholang

/-- Modelled from the spec: `SourcePos` lives in the crate root (`lib.rs`),
which is not among the provided sources; the spec says spans are 1-based
line/column positions ordered textually. -/
structure SourcePos where
  line : Nat
  column : Nat
deriving DecidableEq

/-- Modelled from the spec: textual (lexicographic) strict order on source
positions, mirroring the derived `Ord` the driver uses for `second < first`. -/
def SourcePos.ltB (a b : SourcePos) : Bool :=
  a.line < b.line || (a.line == b.line && a.column < b.column)

/-- Modelled from the spec: `SourceSpan` (crate root, not in the provided
sources): a start/end pair of 1-based positions derived from a CST node
range. -/
structure SourceSpan where
  startPos : SourcePos
  endPos : SourcePos
deriving DecidableEq

/-- Shorthand for building a span from four coordinates. -/
def sp (l1 c1 l2 c2 : Nat) : SourceSpan :=
  ⟨⟨l1, c1⟩, ⟨l2, c2⟩⟩

/-- Grammar node kinds.  The source dispatches on dense `u16` kind ids
produced by the `kind!` proc-macro; we model the closed kind space as an
enum (plus `anon` for anonymous / token kinds such as "=" and missing-token
names, whose exact identity the driver only ever reads as a string). -/
inductive NodeKind where
  | block | wildcard | var | nil | unit | simpleType
  | boolLiteral | longLiteral | stringLiteral | uriLiteral
  | par | eval | quote | method
  | orK | andK | matches | eq | neq | lt | lte | gt | gte
  | concat | diff | add | sub | interpolation | mult | div | modK
  | disjunction | conjunction
  | neg | notK | negation
  | collection | list | setK | tuple | mapK | keyValuePair
  | send | sendSingle | sendMultiple
  | newK | contract | ifElse
  | input | linearBind | repeatedBind | peekBind
  | simpleSource | receiveSendSource | sendReceiveSource
  | matchK | caseK
  | letK | concDecls
  | bundle | bundleWrite | bundleRead | bundleEquiv | bundleReadWrite
  | sendSync | emptyCont | nonEmptyCont
  | varRef
  | errorK
  | anon (s : String)

/-- The grammar name of a kind, as `tree_sitter::Node::kind` would return
it (used for missing-token errors and the var-ref marker comparison). -/
def NodeKind.name : NodeKind → String
  | .block => "block" | .wildcard => "wildcard" | .var => "var"
  | .nil => "nil" | .unit => "unit" | .simpleType => "simple_type"
  | .boolLiteral => "bool_literal" | .longLiteral => "long_literal"
  | .stringLiteral => "string_literal" | .uriLiteral => "uri_literal"
  | .par => "par" | .eval => "eval" | .quote => "quote" | .method => "method"
  | .orK => "or" | .andK => "and" | .matches => "matches"
  | .eq => "eq" | .neq => "neq" | .lt => "lt" | .lte => "lte"
  | .gt => "gt" | .gte => "gte" | .concat => "concat" | .diff => "diff"
  | .add => "add" | .sub => "sub" | .interpolation => "interpolation"
  | .mult => "mult" | .div => "div" | .modK => "mod"
  | .disjunction => "disjunction" | .conjunction => "conjunction"
  | .neg => "neg" | .notK => "not" | .negation => "negation"
  | .collection => "collection" | .list => "list" | .setK => "set"
  | .tuple => "tuple" | .mapK => "map" | .keyValuePair => "key_value_pair"
  | .send => "send" | .sendSingle => "send_single"
  | .sendMultiple => "send_multiple"
  | .newK => "new" | .contract => "contract" | .ifElse => "ifElse"
  | .input => "input" | .linearBind => "linear_bind"
  | .repeatedBind => "repeated_bind" | .peekBind => "peek_bind"
  | .simpleSource => "simple_source"
  | .receiveSendSource => "receive_send_source"
  | .sendReceiveSource => "send_receive_source"
  | .matchK => "match" | .caseK => "case"
  | .letK => "let" | .concDecls => "conc_decls"
  | .bundle => "bundle" | .bundleWrite => "bundle_write"
  | .bundleRead => "bundle_read" | .bundleEquiv => "bundle_equiv"
  | .bundleReadWrite => "bundle_read_write"
  | .sendSync => "send_sync" | .emptyCont => "empty_cont"
  | .nonEmptyCont => "non_empty_cont"
  | .varRef => "var_ref"
  | .errorK => "ERROR"
  | .anon s => s

/-- Kind comparison stands in for the source's `u16` kind-id equality; all
kinds in the enum have distinct grammar names, so comparing names is the
id comparison.  (`anon` is only used for kinds the driver never dispatches
on.) -/
instance : BEq NodeKind := ⟨fun a b => a.name == b.name⟩

/-- A tree-sitter CST node as consumed by the driver (§4.1 of the spec):
kind, error/missing flags, range, raw text of its span, and children.
Per-child data that tree-sitter keeps on the parent edge (the optional
field name and whether the child is a named node) is stored on the child
itself, which is an equivalent encoding. -/
inductive Cst where
  | mk (kind : NodeKind) (isNamed : Bool) (fieldName : Option String)
       (isError : Bool) (isMissing : Bool)
       (span : SourceSpan) (text : String) (children : List Cst)

def Cst.kind : Cst → NodeKind
  | .mk k _ _ _ _ _ _ _ => k

def Cst.isNamed : Cst → Bool
  | .mk _ n _ _ _ _ _ _ => n

def Cst.fieldName : Cst → Option String
  | .mk _ _ f _ _ _ _ _ => f

def Cst.isError : Cst → Bool
  | .mk _ _ _ e _ _ _ _ => e

def Cst.isMissing : Cst → Bool
  | .mk _ _ _ _ m _ _ _ => m

def Cst.span : Cst → SourceSpan
  | .mk _ _ _ _ _ s _ _ => s

def Cst.text : Cst → String
  | .mk _ _ _ _ _ _ t _ => t

def Cst.children : Cst → List Cst
  | .mk _ _ _ _ _ _ _ c => c

/-- `Node::named_children` (skipping anonymous tokens, as the cursor helper
`move_cursor_to_named` does). -/
def Cst.namedChildren (n : Cst) : List Cst :=
  n.children.filter (·.isNamed)

/-- `Node::named_child_count`. -/
def Cst.namedChildCount (n : Cst) : Nat :=
  n.namedChildren.length

/-- `Node::child_by_field_id` / `child_by_field_name`. -/
def Cst.childByField (n : Cst) (f : String) : Option Cst :=
  n.children.find? (fun c => c.fieldName == some f)

/-! ## Text utilities -/

/-- The numeric value of a digit list, most-significant first. -/
def digitsVal (cs : List Char) : Nat :=
  cs.foldl (fun a c => a * 10 + (c.toNat - 48)) 0

/-- The digit-run phase of Rust's `str::parse::<i64>`: a non-empty run of
ASCII digits valued within the 64-bit signed range. -/
def parseI64Digits (sign : Int) (digits : List Char) : Option Int :=
  if digits.isEmpty then none
  else if digits.all Char.isDigit then
    if -(2 ^ 63) ≤ sign * (digitsVal digits : Nat) ∧
        sign * (digitsVal digits : Nat) ≤ 2 ^ 63 - 1 then
      some (sign * (digitsVal digits : Nat))
    else none
  else none

/-- Rust's `str::parse::<i64>` restricted to the shapes a `long_literal`
can take: optional sign, a non-empty run of ASCII digits, and the
64-bit signed range check (overflow is the only failure the driver
expects; any other shape is also `None` here, as in `FromStr`). -/
def parseI64 (s : String) : Option Int :=
  match s.data with
  | '+' :: rest => parseI64Digits 1 rest
  | '-' :: rest => parseI64Digits (-1) rest
  | rest => parseI64Digits 1 rest

/-- Rust's `str::trim_matches(pattern)`: removes every leading and every
trailing character matching the pattern (not just one delimiting pair). -/
def trimMatches (p : Char → Bool) (s : String) : String :=
  ⟨((s.data.dropWhile p).reverse.dropWhile p).reverse⟩

/-- The double-quote character, the pattern used by
`ASTBuilder::alloc_string_literal`. -/
def quoteChar : Char := '"'

/-- The backtick character, the pattern used by `From<&str> for Uri`. -/
def backtickChar : Char := Char.ofNat 96

/-! ## AST data model (`ast.rs`)

Arena references (`&'ast Proc`) become plain nested values; reference
sharing of the pre-interned constants is an allocation optimization with
no value-level content, so it disappears in the embedding. -/

inductive SimpleType where
  | bool | int | string | uri | byteArray
deriving DecidableEq

inductive UnaryExpOp where
  | notOp | negOp | negationOp
deriving DecidableEq

inductive BinaryExpOp where
  | orOp | andOp | matchesOp | eqOp | neqOp | ltOp | lteOp | gtOp | gteOp
  | concatOp | diffOp | addOp | subOp | interpolationOp | multOp | divOp
  | modOp | disjunctionOp | conjunctionOp
deriving DecidableEq

inductive SendType where
  | single | multiple
deriving DecidableEq

inductive BundleType where
  | bundleEquiv | bundleWrite | bundleRead | bundleReadWrite
deriving DecidableEq

inductive VarRefKind where
  | proc | name
deriving DecidableEq

/-- `Id`: an identifier with its source position.  (In the source, `Eq` and
`Ord` on `Id` compare the name only; every comparison site below does the
same explicitly.) -/
structure Id where
  name : String
  pos : SourcePos
deriving DecidableEq

/-- `Var`: a process variable. -/
inductive Var where
  | wildcard
  | id (i : Id)
deriving DecidableEq

/-- `NameDecl`: one declaration of a `new` (identifier plus optional URI,
the URI already backtick-trimmed by `From<&str> for Uri`). -/
structure NameDecl where
  id : Id
  uri : Option String
deriving DecidableEq

mutual

/-- `Proc`: the process term (tagged union of `ast.rs`).  `Case` pairs are
`(pattern, proc)`; a `Receipt` is its list of binds; `SyncSendCont` is the
`cont` field of `sendSync`. -/
inductive Proc where
  | nil
  | unitP
  | boolLiteral (b : Bool)
  | longLiteral (value : Int)
  | stringLiteral (s : String)
  | uriLiteral (u : String)
  | simpleType (t : SimpleType)
  | collection (c : Collection)
  | procVar (v : Var)
  | par (left right : AnnProc)
  | ifThenElse (condition ifTrue : AnnProc) (ifFalse : Option AnnProc)
  | send (channel : AnnName) (sendType : SendType) (inputs : List AnnProc)
  | forComprehension (receipts : List (List Bind)) (proc : AnnProc)
  | matchP (expression : AnnProc) (cases : List (AnnProc × AnnProc))
  | bundleP (bundleType : BundleType) (proc : AnnProc)
  | letP (bindings : List LetBinding) (body : AnnProc) (concurrent : Bool)
  | newP (decls : List NameDecl) (proc : AnnProc)
  | contract (name : AnnName) (formals : Names) (body : AnnProc)
  | sendSync (channel : AnnName) (messages : List AnnProc) (cont : SyncSendCont)
  | eval (name : AnnName)
  | quote (proc : Proc)
  | method (receiver : AnnProc) (name : Id) (args : List AnnProc)
  | unaryExp (op : UnaryExpOp) (arg : Proc)
  | binaryExp (op : BinaryExpOp) (left right : AnnProc)
  | varRef (kind : VarRefKind) (var : Id)
  | bad

/-- `AnnProc`: a process together with its source span. -/
inductive AnnProc where
  | mk (proc : Proc) (span : SourceSpan)

/-- `Collection`: list / tuple / set / map. -/
inductive Collection where
  | listC (elements : List AnnProc) (remainder : Option Var)
  | tupleC (elements : List AnnProc)
  | setC (elements : List AnnProc) (remainder : Option Var)
  | mapC (elements : List (AnnProc × AnnProc)) (remainder : Option Var)

/-- `Name`: a process variable or a quoted process used as a channel. -/
inductive Name where
  | procVar (v : Var)
  | quote (p : Proc)

/-- `AnnName`: a name with its source span. -/
inductive AnnName where
  | mk (name : Name) (span : SourceSpan)

/-- `Names`: an ordered sequence of names plus an optional remainder. -/
inductive Names where
  | mk (names : List AnnName) (remainder : Option Var)

/-- `Bind`: one for-comprehension bind. -/
inductive Bind where
  | linear (lhs : Names) (rhs : Source)
  | repeated (lhs : Names) (rhs : AnnName)
  | peek (lhs : Names) (rhs : AnnName)

/-- `Source`: the right-hand side of a linear bind. -/
inductive Source where
  | simple (name : AnnName)
  | receiveSend (name : AnnName)
  | sendReceive (name : AnnName) (inputs : List AnnProc)

/-- `SyncSendCont`: continuation of a synchronous send. -/
inductive SyncSendCont where
  | empty
  | nonEmpty (cont : AnnProc)

/-- `LetBinding`: one binding produced for a `let` declaration. -/
inductive LetBinding where
  | single (lhs : AnnName) (rhs : AnnProc)
  | multiple (lhs : Var) (rhs : List AnnProc)

end

def AnnProc.proc : AnnProc → Proc
  | .mk p _ => p

def AnnProc.span : AnnProc → SourceSpan
  | .mk _ s => s

def AnnName.name : AnnName → Name
  | .mk n _ => n

def AnnName.span : AnnName → SourceSpan
  | .mk _ s => s

/-! ## Errors (`parser/errors.rs`) -/

/-- `ParsingError`: the error-kind enum. -/
inductive ParsingError where
  | syntaxError (sexp : String)
  | missingToken (kind : String)
  | unexpected (c : Char)
  | unexpectedVar (v : String)
  | numberOutOfRange
  | duplicateNameDecl (first second : SourcePos)
  | malformedLetDecl (lhsArity rhsArity : Nat)
deriving DecidableEq

/-- `AnnParsingError`: an error with its source span. -/
structure AnnParsingError where
  error : ParsingError
  span : SourceSpan
deriving DecidableEq

/-- `ParsingFailure`: best-effort tree plus the accumulated errors.  The
source stores the errors in a `NEVec`; non-emptiness is established at the
sole construction site (claim C3). -/
structure ParsingFailure where
  partTree : Option AnnProc
  errors : List AnnParsingError

/-- `Validated<AnnProc, ParsingFailure>` as returned by `node_to_ast`. -/
inductive Validated where
  | good (result : AnnProc)
  | fail (failure : ParsingFailure)

/-- Rust panics.  The driver treats all of these as fatal
internal-consistency conditions, never as normal error values. -/
inductive Panic where
  | missingChild (msg : String)
  | expectFail (msg : String)
  | assertFail (msg : String)
  | unreachableCase (msg : String)
  | unimplementedKind (kind : String)
  | indexOutOfBounds
  | stackUnderflow
  | prematureFinish
deriving DecidableEq

/-! ## Fallible conversions (`ast.rs` `TryFrom` impls) -/

/-- `TryFrom<&Proc> for Var`. -/
def Proc.tryIntoVar : Proc → Except String Var
  | .procVar v => .ok v
  | _ => .error "attempt to convert a non-variable to a var"

/-- `TryFrom<AnnProc> for Var`. -/
def AnnProc.tryIntoVar (a : AnnProc) : Except String Var :=
  a.proc.tryIntoVar

/-- `TryFrom<&Proc> for Name`. -/
def Proc.tryIntoName : Proc → Except String Name
  | .procVar v => .ok (.procVar v)
  | .quote p => .ok (.quote p)
  | _ => .error "is not a name"

/-- `TryFrom<AnnProc> for AnnName`. -/
def AnnProc.tryIntoName (a : AnnProc) : Except String AnnName :=
  a.proc.tryIntoName.map (fun n => .mk n a.span)

/-- `Result::expect(msg)`: success passes through, failure panics with the
given message. -/
def expectE {α : Type} (msg : String) : Except String α → Except Panic α
  | .ok a => .ok a
  | .error _ => .error (.expectFail msg)

/-- `Names::from_slice`: build a `Names` from already-produced operands,
splitting off a trailing remainder when requested (`ast.rs`). -/
def Names.fromSlice (slice : List AnnProc) (withRemainder : Bool) :
    Except String Names :=
  let toNames (procs : List AnnProc) : Except String (List AnnName) :=
    procs.mapM AnnProc.tryIntoName
  if withRemainder then
    match slice.getLast? with
    | none => .error "attempt to build names with remainder out of zero names"
    | some last =>
      let init := slice.dropLast
      if init.isEmpty then
        .error "attempt to build names with remainder out of one name"
      else do
        let names ← toNames init
        let remainder ← last.tryIntoVar
        .ok (.mk names (some remainder))
  else
    if slice.isEmpty then .error "attempt to build empty names"
    else do
      let names ← toNames slice
      .ok (.mk names none)

/-! ## AST builder (`parser/ast_builder.rs`)

The arena is irrelevant for values; each `alloc_X` becomes a value
constructor.  The pre-interned constants are kept as named definitions so
call sites mirror the source. -/

def NIL : Proc := .nil
def TRUE : Proc := .boolLiteral true
def FALSE : Proc := .boolLiteral false
def WILD : Proc := .procVar .wildcard
def UNIT : Proc := .unitP
def BAD : Proc := .bad
def EMPTY_LIST : Proc := .collection (.listC [] none)
def ZERO : Proc := .longLiteral 0
def ONE : Proc := .longLiteral 1

/-- `alloc_string_literal`: stores the span text with every leading and
trailing double quote trimmed. -/
def allocStringLiteral (value : String) : Proc :=
  .stringLiteral (trimMatches (fun c => c == quoteChar) value)

/-- `alloc_long_literal` (0 and 1 return the interned constants, which are
the same values). -/
def allocLongLiteral (value : Int) : Proc :=
  if value = 0 then ZERO
  else if value = 1 then ONE
  else .longLiteral value

/-- `From<&str> for Uri`: trims every leading and trailing backtick. -/
def uriFromStr (value : String) : String :=
  trimMatches (fun c => c == backtickChar) value

/-- `alloc_uri_literal`. -/
def allocUriLiteral (value : String) : Proc :=
  .uriLiteral (uriFromStr value)

/-- `alloc_list` (the empty list returns the interned constant — the same
value). -/
def allocList (procs : List AnnProc) : Proc :=
  if procs.isEmpty then EMPTY_LIST
  else .collection (.listC procs none)

/-- `ASTBuilder::to_key_value`: `chunks_exact(2)` pairing (an odd trailing
element is dropped, exactly as `chunks_exact` drops the remainder). -/
def toKeyValue : List AnnProc → List (AnnProc × AnnProc)
  | a :: b :: rest => (a, b) :: toKeyValue rest
  | _ => []

/-- `alloc_match`'s `chunks_exact(2)` pairing of (pattern, proc) cases. -/
def toCases : List AnnProc → List (AnnProc × AnnProc)
  | a :: b :: rest => (a, b) :: toCases rest
  | _ => []

/-! ## Driver descriptors (`parser/parsing.rs`) -/

/-- `SourceDesc`: shape of a linear bind's source. -/
inductive SourceDesc where
  | simple
  | rs
  | sr (arity : Nat)
deriving DecidableEq

/-- `SourceDesc::arity` — note: the `sr` case returns only the input
count, a key fact for claims C1/C2. -/
def SourceDesc.arity : SourceDesc → Nat
  | .simple | .rs => 1
  | .sr arity => arity

/-- `BindDesc`: shape of one bind of a receipt. -/
inductive BindDesc where
  | linear (nameCount : Nat) (contPresent : Bool) (source : SourceDesc)
  | repeated (nameCount : Nat) (contPresent : Bool)
  | peek (nameCount : Nat) (contPresent : Bool)
deriving DecidableEq

/-- `BindDesc::arity`. -/
def BindDesc.arity : BindDesc → Nat
  | .linear nameCount _ source => nameCount + source.arity
  | .repeated nameCount _ | .peek nameCount _ => nameCount + 1

/-- `ReceiptDesc`: the binds of one receipt plus their total arity. -/
structure ReceiptDesc where
  parts : List BindDesc
  len : Nat
deriving DecidableEq

/-- `LetDecl`: recorded arities of one `let` declaration. -/
structure LetDecl where
  lhsArity : Nat
  lhsHasCont : Bool
  rhsArity : Nat
deriving DecidableEq

/-- `BindDesc::to_bind`: reassemble one bind from its operand slice
(in stack bottom-first order: channel, then source inputs, then names). -/
def BindDesc.toBind (d : BindDesc) (procs : List AnnProc) :
    Except Panic Bind := do
  if procs.length ≠ d.arity then
    .error (.assertFail "procs.len() == self.arity()")
  else
    match procs.head? with
    | none => .error .indexOutOfBounds
    | some first => do
      let channelName ← expectE "expected a name" first.tryIntoName
      match d with
      | .linear _ contPresent source => do
        let rhs ← match source with
          | .simple => pure (Source.simple channelName)
          | .rs => pure (Source.receiveSend channelName)
          | .sr arity =>
            -- `&procs[1..=arity]` — panics when the inclusive end overruns
            if arity + 1 > procs.length then .error .indexOutOfBounds
            else pure (Source.sendReceive channelName
                        ((procs.drop 1).take arity))
        let lhs ← expectE "expected a list of names"
          (Names.fromSlice (procs.drop source.arity) contPresent)
        .ok (.linear lhs rhs)
      | .repeated _ contPresent => do
        let lhs ← expectE "expected a list of names"
          (Names.fromSlice (procs.drop 1) contPresent)
        .ok (.repeated lhs channelName)
      | .peek _ contPresent => do
        let lhs ← expectE "expected a list of names"
          (Names.fromSlice (procs.drop 1) contPresent)
        .ok (.peek lhs channelName)

/-- `BindIter`: slice the flat operand sequence per bind
(`split_at` panics when a bind's arity overruns the slice). -/
def bindsOf : List BindDesc → List AnnProc → Except Panic (List Bind)
  | [], _ => .ok []
  | d :: ds, procs =>
    if d.arity > procs.length then .error .indexOutOfBounds
    else do
      let b ← d.toBind (procs.take d.arity)
      let rest ← bindsOf ds (procs.drop d.arity)
      .ok (b :: rest)

/-- `ReceiptIter`: slice the flat operand sequence per receipt. -/
def receiptsOf : List ReceiptDesc → List AnnProc →
    Except Panic (List (List Bind))
  | [], _ => .ok []
  | r :: rs, procs =>
    if r.len > procs.length then .error .indexOutOfBounds
    else do
      let bs ← bindsOf r.parts (procs.take r.len)
      let rest ← receiptsOf rs (procs.drop r.len)
      .ok (bs :: rest)

/-- `LetBindingIter`'s state after `new`: the pairwise `Zip` not yet
consumed, and the optional `(remainder variable, value tail)` pair.  The
source `next()` reads `self.tail` with `map`, never `take()`, so yielding
the tail does NOT clear it. -/
structure LetBindingIterSt where
  pairs : List (AnnProc × AnnProc)
  tail : Option (Var × List AnnProc)

/-- `LetBindingIter::new`: assert the slice is the declaration's exact
operand count, split it into patterns and values; when a remainder is
declared and there are strictly more values than patterns, the last lhs
operand becomes the remainder variable (`expect("expected a var")`)
paired with the value tail, and the zip covers the remaining patterns;
otherwise the zip pairs patterns and values directly (Rust's `Zip`
truncates at the shorter side). -/
def letBindingIterNew (decl : LetDecl) (slice : List AnnProc) :
    Except Panic LetBindingIterSt :=
  if slice.isEmpty || slice.length ≠ decl.lhsArity + decl.rhsArity then
    .error (.assertFail "slice.len() == lhs_arity + rhs_arity")
  else
    let lhs := slice.take decl.lhsArity
    let rhs := slice.drop decl.lhsArity
    if decl.lhsHasCont && rhs.length > lhs.length then
      match lhs.getLast? with
      | none => .error (.unreachableCase "cont implies lhs arity at least 1")
      | some rem => do
        let remVar ← expectE "expected a var" rem.tryIntoVar
        .ok ⟨lhs.dropLast.zip rhs, some (remVar, rhs.drop (lhs.length - 1))⟩
    else
      .ok ⟨lhs.zip rhs, none⟩

/-- `LetBindingIter::next`: drain the zip into `Single` bindings
(`expect("expected a name")` on each pattern); once the zip is empty a
remainder-bearing iterator yields the `Multiple` binding — and because
the source never clears `self.tail`, the returned state still carries it,
so every later `next()` yields the same `Multiple` binding again. -/
def letBindingIterNext (st : LetBindingIterSt) :
    Except Panic (Option (LetBinding × LetBindingIterSt)) :=
  match st.pairs with
  | (l, r) :: rest => do
    let lhsName ← expectE "expected a name" l.tryIntoName
    .ok (some (.single lhsName r, ⟨rest, st.tail⟩))
  | [] =>
    match st.tail with
    | some (v, rhs) => .ok (some (.multiple v rhs, st))
    | none => .ok none

/-- `LetDeclIter`'s state: the remaining declarations, the remaining
operand slice, and the current inner `LetBindingIter` if any. -/
structure LetDeclIterSt where
  outer : List LetDecl
  procs : List AnnProc
  inner : Option LetBindingIterSt

/-- Prepend one collected binding to the result of the rest of the
collection (`.ok none` — fuel ran out — propagates). -/
def consCollect (b : LetBinding) :
    Except Panic (Option (List LetBinding)) →
    Except Panic (Option (List LetBinding))
  | .error p => .error p
  | .ok none => .ok none
  | .ok (some bs) => .ok (some (b :: bs))

/-- `alloc_let`'s `collect::<Vec<_>>()` of the `LetDeclIter`, one unit of
fuel per iteration of `LetDeclIter::next`'s loop: either the current
inner iterator yields (or is exhausted), or the outer iterator advances,
slicing `lhs_arity + rhs_arity` operands for the next declaration
(`split_at` panics when it overruns the slice).  `.ok none` means the
iterator was still yielding when the fuel ran out; on a
remainder-bearing declaration with surplus values the inner iterator
yields forever, so that holds for every fuel — the source `collect`
never returns. -/
def collectLetBindings : Nat → LetDeclIterSt →
    Except Panic (Option (List LetBinding))
  | 0, _ => .ok none
  | fuel + 1, st =>
    match st.inner with
    | some ist =>
      match letBindingIterNext ist with
      | .error p => .error p
      | .ok (some (b, ist')) =>
        consCollect b
          (collectLetBindings fuel { st with inner := some ist' })
      | .ok none =>
        match st.outer with
        | [] => .ok (some [])
        | d :: ds =>
          let n := d.lhsArity + d.rhsArity
          if st.procs.length < n then .error .indexOutOfBounds
          else
            match letBindingIterNew d (st.procs.take n) with
            | .error p => .error p
            | .ok ist2 =>
              collectLetBindings fuel ⟨ds, st.procs.drop n, some ist2⟩
    | none =>
      match st.outer with
      | [] => .ok (some [])
      | d :: ds =>
        let n := d.lhsArity + d.rhsArity
        if st.procs.length < n then .error .indexOutOfBounds
        else
          match letBindingIterNew d (st.procs.take n) with
          | .error p => .error p
          | .ok ist2 =>
            collectLetBindings fuel ⟨ds, st.procs.drop n, some ist2⟩

/-- Build the `Let` process once the collection has finished (`.ok none`
— fuel ran out mid-collection — propagates). -/
def finishLet (span : SourceSpan) (concurrent : Bool) (body : AnnProc)
    (rest : List AnnProc) :
    Except Panic (Option (List LetBinding)) →
    Except Panic (Option (List AnnProc))
  | .error p => .error p
  | .ok none => .ok none
  | .ok (some bindings) =>
    .ok (some (.mk (.letP bindings body concurrent) span :: rest))

/-- The `ConsumeLet` arm of `apply_cont`: pop the declarations' total
operand count plus the body (`replace_top_slice`, so the slice is
bottom-first and the body is its first element), collect the
`LetDeclIter` with the given fuel, and push the combined `Let` process.
`.ok none` means the collection was still running when the fuel ran
out. -/
def applyConsumeLet (fuel : Nat) (span : SourceSpan) (concurrent : Bool)
    (letDecls : List LetDecl) (stack : List AnnProc) :
    Except Panic (Option (List AnnProc)) :=
  let n := (letDecls.map (fun d => d.lhsArity + d.rhsArity)).sum
  if stack.length < n + 1 then .error .stackUnderflow
  else
    match (stack.take (n + 1)).reverse with
    | body :: procs =>
      finishLet span concurrent body (stack.drop (n + 1))
        (collectLetBindings fuel ⟨letDecls, procs, none⟩)
    | [] => .error .indexOutOfBounds

/-! ## Continuations and the operand stack -/

/-- `K`: one continuation-stack work item. `evalList` carries the cursor's
remaining named children (the `TreeCursor` advanced by
`move_cursor_to_named` yields exactly the named children in order). -/
inductive K where
  | consumeBinaryExp (op : BinaryExpOp) (span : SourceSpan)
  | consumeBundle (span : SourceSpan) (typ : BundleType)
  | consumeContract (arity : Nat) (hasCont : Bool) (span : SourceSpan)
  | consumeEval (span : SourceSpan)
  | consumeForComprehension (desc : List ReceiptDesc) (span : SourceSpan)
  | consumeIfThen (span : SourceSpan)
  | consumeIfThenElse (span : SourceSpan)
  | consumeLet (span : SourceSpan) (concurrent : Bool)
      (letDecls : List LetDecl)
  | consumeList (arity : Nat) (hasRemainder : Bool) (span : SourceSpan)
  | consumeMap (arity : Nat) (hasRemainder : Bool) (span : SourceSpan)
  | consumeMatch (span : SourceSpan) (arity : Nat)
  | consumeMethod (span : SourceSpan) (id : Id) (arity : Nat)
  | consumeNew (decls : List NameDecl) (span : SourceSpan)
  | consumePar (span : SourceSpan)
  | consumeQuote (span : SourceSpan)
  | consumeSend (sendType : SendType) (arity : Nat) (span : SourceSpan)
  | consumeSendSync (span : SourceSpan) (arity : Nat)
  | consumeSendSyncWithCont (span : SourceSpan) (arity : Nat)
  | consumeSet (arity : Nat) (hasRemainder : Bool) (span : SourceSpan)
  | consumeTuple (arity : Nat) (span : SourceSpan)
  | consumeUnaryExp (op : UnaryExpOp) (span : SourceSpan)
  | evalDelayed (node : Cst)
  | evalList (pending : List Cst)

/-- Driver state: operand stack (head = top), continuation stack
(head = top) and the accumulated errors (in push order). -/
structure DriverSt where
  procStack : List AnnProc
  contStack : List K
  errors : List AnnParsingError

/-- Push an operand (`ProcStack::push`). -/
def DriverSt.pushProc (st : DriverSt) (p : Proc) (span : SourceSpan) :
    DriverSt :=
  { st with procStack := .mk p span :: st.procStack }

/-- `Vec::push` on the continuation stack. -/
def DriverSt.pushK (st : DriverSt) (k : K) : DriverSt :=
  { st with contStack := k :: st.contStack }

/-- `Vec::append(&mut temp)` on the continuation stack: `temp` is in Vec
order (index 0 first), so its last element ends up topmost. -/
def DriverSt.appendK (st : DriverSt) (temp : List K) : DriverSt :=
  { st with contStack := temp.reverse ++ st.contStack }

/-- Record a semantic error (`errors.push`). -/
def DriverSt.pushError (st : DriverSt) (e : ParsingError)
    (span : SourceSpan) : DriverSt :=
  { st with errors := st.errors ++ [⟨e, span⟩] }

/-- `ProcStack::replace_top` (underflow when empty). -/
def replaceTop (stack : List AnnProc)
    (replace : AnnProc → Except Panic AnnProc) :
    Except Panic (List AnnProc) :=
  match stack with
  | [] => .error .stackUnderflow
  | top :: rest => do
    let r ← replace top
    .ok (r :: rest)

/-- `ProcStack::replace_top2` — the callback receives the two operands
bottom-first. -/
def replaceTop2 (stack : List AnnProc)
    (replace : AnnProc → AnnProc → Except Panic AnnProc) :
    Except Panic (List AnnProc) :=
  match stack with
  | top :: top1 :: rest => do
    let r ← replace top1 top
    .ok (r :: rest)
  | _ => .error .stackUnderflow

/-- `ProcStack::replace_top3` — the callback receives the three operands
bottom-first. -/
def replaceTop3 (stack : List AnnProc)
    (replace : AnnProc → AnnProc → AnnProc → Except Panic AnnProc) :
    Except Panic (List AnnProc) :=
  match stack with
  | top :: top1 :: top2 :: rest => do
    let r ← replace top2 top1 top
    .ok (r :: rest)
  | _ => .error .stackUnderflow

/-- `ProcStack::replace_top_slice` — the callback receives the top `n`
operands as a slice in stack bottom-first order (the source slice
`&stack[top - n..]`). -/
def replaceTopSlice (stack : List AnnProc) (n : Nat)
    (replace : List AnnProc → Except Panic AnnProc) :
    Except Panic (List AnnProc) :=
  if stack.length < n then .error .stackUnderflow
  else do
    let slice := (stack.take n).reverse
    let r ← replace slice
    .ok (r :: stack.drop n)

/-- One `Consume*` combination step of `apply_cont`: pop the operands the
continuation describes and push the single combined result.  Each arm
mirrors the corresponding arm of the source `match k`. -/
def applyConsume (k : K) (stack : List AnnProc) :
    Except Panic (List AnnProc) :=
  match k with
  | .consumeBinaryExp op span =>
    replaceTop2 stack (fun left right =>
      .ok (.mk (.binaryExp op left right) span))
  | .consumeBundle span typ =>
    replaceTop stack (fun proc =>
      .ok (.mk (.bundleP typ proc) span))
  | .consumeContract arity hasCont span =>
    replaceTopSlice stack (arity + 2) (fun nameBodyFormals =>
      match nameBodyFormals with
      | nameOp :: body :: formalsOps => do
        let name ← expectE "expected a name" nameOp.tryIntoName
        let args ← expectE "expected a list of names"
          (Names.fromSlice formalsOps hasCont)
        .ok (.mk (.contract name args body) span)
      | _ => .error .indexOutOfBounds)
  | .consumeEval span =>
    replaceTop stack (fun proc => do
      let name ← expectE "expected a name" proc.tryIntoName
      .ok (.mk (.eval name) span))
  | .consumeForComprehension desc span =>
    let n := (desc.map (·.len)).sum
    replaceTopSlice stack (n + 1) (fun bodyProcs =>
      match bodyProcs with
      | body :: procs => do
        let receipts ← receiptsOf desc procs
        .ok (.mk (.forComprehension receipts body) span)
      | _ => .error .indexOutOfBounds)
  | .consumeIfThen span =>
    replaceTop2 stack (fun cond ifTrue =>
      .ok (.mk (.ifThenElse cond ifTrue none) span))
  | .consumeIfThenElse span =>
    replaceTop3 stack (fun cond ifTrue ifFalse =>
      .ok (.mk (.ifThenElse cond ifTrue (some ifFalse)) span))
  | .consumeLet _ _ _ =>
    -- The `ConsumeLet` combination is `applyConsumeLet`, driven from the
    -- drain loop with the driver's fuel, because collecting the
    -- `LetDeclIter` need not terminate; the drain loop dispatches
    -- `consumeLet` there, never here.
    .error (.unreachableCase "ConsumeLet is combined by applyConsumeLet")
  | .consumeList arity hasRemainder span =>
    replaceTopSlice stack arity (fun elems =>
      if hasRemainder then
        match elems.getLast? with
        | none => .error (.assertFail "!elems.is_empty()")
        | some last => do
          let remVar ← expectE "expected a var" last.tryIntoVar
          .ok (.mk (.collection (.listC elems.dropLast (some remVar))) span)
      else
        .ok (.mk (allocList elems) span))
  | .consumeMap arity hasRemainder span =>
    let n := arity * 2 + (if hasRemainder then 1 else 0)
    replaceTopSlice stack n (fun elems =>
      if hasRemainder then
        match elems with
        | first :: rest => do
          let remVar ← expectE "expected a var" first.tryIntoVar
          .ok (.mk (.collection (.mapC (toKeyValue rest) (some remVar))) span)
        | _ => .error .indexOutOfBounds
      else
        .ok (.mk (.collection (.mapC (toKeyValue elems) none)) span))
  | .consumeMatch span arity =>
    replaceTopSlice stack (arity * 2 + 1) (fun exprCases =>
      match exprCases with
      | expr :: cases =>
        .ok (.mk (.matchP expr (toCases cases)) span)
      | _ => .error .indexOutOfBounds)
  | .consumeMethod span id arity =>
    replaceTopSlice stack (arity + 1) (fun recvArgs =>
      match recvArgs with
      | recv :: args =>
        .ok (.mk (.method recv id args) span)
      | _ => .error .indexOutOfBounds)
  | .consumeNew decls span =>
    replaceTop stack (fun body =>
      .ok (.mk (.newP decls body) span))
  | .consumePar span =>
    replaceTop2 stack (fun left right =>
      .ok (.mk (.par left right) span))
  | .consumeQuote span =>
    replaceTop stack (fun top =>
      .ok (.mk (.quote top.proc) span))
  | .consumeSend sendType arity span =>
    replaceTopSlice stack (arity + 1) (fun nameArgs =>
      match nameArgs with
      | channelOp :: inputs => do
        let channel ← expectE "expected a name" channelOp.tryIntoName
        .ok (.mk (.send channel sendType inputs) span)
      | _ => .error .indexOutOfBounds)
  | .consumeSendSync span arity =>
    replaceTopSlice stack (arity + 1) (fun nameInputs =>
      match nameInputs with
      | channelOp :: messages => do
        let channel ← expectE "expected a name" channelOp.tryIntoName
        .ok (.mk (.sendSync channel messages .empty) span)
      | _ => .error .indexOutOfBounds)
  | .consumeSendSyncWithCont span arity =>
    replaceTopSlice stack (arity + 2) (fun nameInputsCont =>
      match nameInputsCont with
      | channelOp :: rest => do
        let channel ← expectE "expected a name" channelOp.tryIntoName
        match rest.getLast? with
        | none => .error .indexOutOfBounds
        | some cont =>
          .ok (.mk (.sendSync channel rest.dropLast (.nonEmpty cont)) span)
      | _ => .error .indexOutOfBounds)
  | .consumeSet arity hasRemainder span =>
    replaceTopSlice stack arity (fun elems =>
      if hasRemainder then
        match elems.getLast? with
        | none => .error (.assertFail "!elems.is_empty()")
        | some last => do
          let remVar ← expectE "expected a var" last.tryIntoVar
          .ok (.mk (.collection (.setC elems.dropLast (some remVar))) span)
      else
        .ok (.mk (.collection (.setC elems none)) span))
  | .consumeTuple arity span =>
    replaceTopSlice stack arity (fun elems =>
      .ok (.mk (.collection (.tupleC elems)) span))
  | .consumeUnaryExp op span =>
    replaceTop stack (fun top =>
      .ok (.mk (.unaryExp op top.proc) span))
  | .evalDelayed _ | .evalList _ =>
    .error (.unreachableCase "Eval continuations are handled in another branch")

/-! ## Node access helpers (`parsing.rs`) -/

/-- `get_first_child`: the first named child, panicking when absent. -/
def getFirstChild (of : Cst) : Except Panic Cst :=
  match of.namedChildren.head? with
  | some c => .ok c
  | none => .error (.missingChild "expected to have a child node")

/-- `get_left_and_right`: the first two named children, panicking when
absent. -/
def getLeftAndRight (of : Cst) : Except Panic (Cst × Cst) :=
  match of.namedChildren with
  | left :: right :: _ => .ok (left, right)
  | _ => .error (.missingChild "expected to have two child nodes")

/-- `get_field`: the child designated by a field, panicking when absent. -/
def getField (of : Cst) (f : String) : Except Panic Cst :=
  match of.childByField f with
  | some c => .ok c
  | none => .error (.missingChild f)

/-- `get_node_value`: the raw source text of the node's span. -/
def getNodeValue (node : Cst) : String :=
  node.text

/-- `named_children_of_kind`. -/
def namedChildrenOfKind (node : Cst) (kind : NodeKind) : List Cst :=
  node.namedChildren.filter (fun c => c.kind == kind)

/-- The iteration of `eval_named_pairs` over the selected children: push
`EvalDelayed` items for the two selected fields of every child and count
the pairs. -/
def evalNamedPairsGo (fstSelector sndSelector : String) :
    List Cst → Except Panic (Nat × List K)
  | [] => .ok (0, [])
  | child :: rest => do
    let fst ← getField child fstSelector
    let snd ← getField child sndSelector
    let (arity, ks) ← evalNamedPairsGo fstSelector sndSelector rest
    .ok (arity + 1, K.evalDelayed fst :: K.evalDelayed snd :: ks)

/-- `eval_named_pairs`: for every named child of the given kind push
`EvalDelayed` items for its two selected fields, count the pairs, and
reverse the produced continuation list (in Vec order) before returning. -/
def evalNamedPairs (of : Cst) (kind : NodeKind)
    (fstSelector sndSelector : String) : Except Panic (Nat × List K) := do
  let (arity, temp) ←
    evalNamedPairsGo fstSelector sndSelector (namedChildrenOfKind of kind)
  .ok (arity, temp.reverse)

/-- `parse_decls`: read the name declarations of a `new`. -/
def parseDecls (from_ : Cst) : Except Panic (List NameDecl) :=
  from_.namedChildren.mapM (fun declNode => do
    let varNode ← getFirstChild declNode
    let id : Id := ⟨getNodeValue varNode, varNode.span.startPos⟩
    let uri := (declNode.childByField "uri").map
      (fun uriLit => uriFromStr (getNodeValue uriLit))
    pure (NameDecl.mk id uri))

/-- Lexicographic comparison of identifier text, as Rust's `Ord` on `str`
compares byte slices (identifiers are ASCII, so char order is byte
order). -/
def charListLe : List Char → List Char → Bool
  | [], _ => true
  | _ :: _, [] => false
  | a :: as, b :: bs =>
    if a < b then true else if b < a then false else charListLe as bs

/-- See `charListLe`. -/
def strLeB (a b : String) : Bool :=
  charListLe a.data b.data

/-- `decls.sort_unstable()`: insertion sort by the `Ord` on `NameDecl`,
which compares identifier names only.  (The source sort is unstable; ties
may come out in any order, and every property proved below is insensitive
to the tie order because the reported positions are normalized.) -/
def insertDecl (d : NameDecl) : List NameDecl → List NameDecl
  | [] => [d]
  | e :: es =>
    if strLeB d.id.name e.id.name then d :: e :: es else e :: insertDecl d es

/-- See `insertDecl`. -/
def sortDecls : List NameDecl → List NameDecl
  | [] => []
  | d :: ds => insertDecl d (sortDecls ds)

/-- `decls.windows(2).find(|w| w[0] == w[1])`: the first adjacent pair of
equal (same-named) declarations. -/
def adjacentDup : List NameDecl → Option (NameDecl × NameDecl)
  | d1 :: d2 :: rest =>
    if d1.id.name == d2.id.name then some (d1, d2)
    else adjacentDup (d2 :: rest)
  | _ => none

/-- The duplicate-declaration check of the `new` arm: sort, scan adjacent
pairs, and normalize the two positions so the textually earlier one is
reported first. -/
def newDupError (decls : List NameDecl) : Option ParsingError :=
  match adjacentDup (sortDecls decls) with
  | none => none
  | some (d1, d2) =>
    let first := d1.id.pos
    let second := d2.id.pos
    if SourcePos.ltB second first then
      some (.duplicateNameDecl second first)
    else
      some (.duplicateNameDecl first second)

/-! ## The classification phase of `node_to_ast`

`classify node st` performs one iteration of the outer `'parse` loop up to
(but not including) the drain loop: the error/missing check, the big kind
dispatch, and the `if bad` push.  The result is the updated state plus
`some next` when the source does `continue 'parse` with a new cursor, or
`none` when control falls through to the drain loop. -/

def classify (node : Cst) (st : DriverSt) :
    Except Panic (DriverSt × Option Cst) := do
  if node.isError || node.isMissing then
    -- the errors will be discovered when parsing is done
    .ok (st.pushProc BAD node.span, none)
  else
    let span := node.span
    match node.kind with
    | .block => do
      let first ← getFirstChild node
      .ok (st, some first)

    | .wildcard => .ok (st.pushProc WILD span, none)
    | .var =>
      let id : Id := ⟨getNodeValue node, span.startPos⟩
      .ok (st.pushProc (.procVar (.id id)) span, none)

    | .nil => .ok (st.pushProc NIL span, none)
    | .unit => .ok (st.pushProc UNIT span, none)
    | .simpleType =>
      let litValue := getNodeValue node
      if litValue == "Bool" then
        .ok (st.pushProc (.simpleType .bool) span, none)
      else if litValue == "Int" then
        .ok (st.pushProc (.simpleType .int) span, none)
      else if litValue == "String" then
        .ok (st.pushProc (.simpleType .string) span, none)
      else if litValue == "Uri" then
        .ok (st.pushProc (.simpleType .uri) span, none)
      else if litValue == "ByteArray" then
        .ok (st.pushProc (.simpleType .byteArray) span, none)
      else
        .error (.unreachableCase "Simple type names are fixed")
    | .boolLiteral =>
      let litValue := getNodeValue node
      if litValue == "true" then .ok (st.pushProc TRUE span, none)
      else if litValue == "false" then .ok (st.pushProc FALSE span, none)
      else .error (.unreachableCase "Boolean literal is always true or false")
    | .longLiteral =>
      let litValue := getNodeValue node
      match parseI64 litValue with
      | some i64Value =>
        .ok (st.pushProc (allocLongLiteral i64Value) span, none)
      | none =>
        -- the only possibility is pos/neg overflow
        let st := st.pushError .numberOutOfRange span
        .ok (st.pushProc BAD node.span, none)
    | .stringLiteral =>
      .ok (st.pushProc (allocStringLiteral (getNodeValue node)) span, none)
    | .uriLiteral =>
      .ok (st.pushProc (allocUriLiteral (getNodeValue node)) span, none)

    | .par => do
      let (left, right) ← getLeftAndRight node
      let st := (st.pushK (.consumePar span)).pushK (.evalDelayed right)
      .ok (st, some left)
    | .eval => do
      let first ← getFirstChild node
      .ok (st.pushK (.consumeEval span), some first)
    | .quote => do
      let first ← getFirstChild node
      .ok (st.pushK (.consumeQuote span), some first)
    | .method => do
      let receiverNode ← getField node "receiver"
      let nameNode ← getField node "name"
      let argsNode ← getField node "args"
      let st := st.pushK (.consumeMethod span
        ⟨getNodeValue nameNode, nameNode.span.startPos⟩
        argsNode.namedChildCount)
      let st := st.pushK (.evalList argsNode.namedChildren)
      .ok (st, some receiverNode)

    | .orK | .andK | .matches | .eq | .neq | .lt | .lte | .gt | .gte
    | .concat | .diff | .add | .sub | .interpolation | .mult | .div
    | .modK | .disjunction | .conjunction => do
      let (left, right) ← getLeftAndRight node
      let op : BinaryExpOp :=
        match node.kind with
        | .orK => .orOp
        | .andK => .andOp
        | .matches => .matchesOp
        | .eq => .eqOp
        | .neq => .neqOp
        | .lt => .ltOp
        | .lte => .lteOp
        | .gt => .gtOp
        | .gte => .gteOp
        | .concat => .concatOp
        | .diff => .diffOp
        | .add => .addOp
        | .sub => .subOp
        | .interpolation => .interpolationOp
        | .mult => .multOp
        | .div => .divOp
        | .modK => .modOp
        | .disjunction => .disjunctionOp
        | _ => .conjunctionOp
      let st := (st.pushK (.consumeBinaryExp op span)).pushK
        (.evalDelayed right)
      .ok (st, some left)
    | .neg | .notK | .negation => do
      let procNode ← getFirstChild node
      let op : UnaryExpOp :=
        match node.kind with
        | .neg => .negOp
        | .notK => .notOp
        | _ => .negationOp
      .ok (st.pushK (.consumeUnaryExp op span), some procNode)

    | .collection => do
      let collectionNode ← getFirstChild node
      let isTuple := collectionNode.kind == NodeKind.tuple
      let remainderNode :=
        if isTuple then none else collectionNode.childByField "remainder"
      let hasRemainder := remainderNode.isSome
      if collectionNode.kind == NodeKind.list then
        let st := st.pushK
          (.consumeList collectionNode.namedChildCount hasRemainder span)
        .ok (st.pushK (.evalList collectionNode.namedChildren), none)
      else if collectionNode.kind == NodeKind.setK then
        let st := st.pushK
          (.consumeSet collectionNode.namedChildCount hasRemainder span)
        .ok (st.pushK (.evalList collectionNode.namedChildren), none)
      else if collectionNode.kind == NodeKind.tuple then
        let st := st.pushK
          (.consumeTuple collectionNode.namedChildCount span)
        .ok (st.pushK (.evalList collectionNode.namedChildren), none)
      else if collectionNode.kind == NodeKind.mapK then do
        let (arity, temp) ←
          evalNamedPairs collectionNode .keyValuePair "key" "value"
        let st := st.pushK (.consumeMap arity hasRemainder span)
        let st := st.appendK temp
        match remainderNode with
        | some rem => .ok (st.pushK (.evalDelayed rem), none)
        | none => .ok (st, none)
      else
        .error (.unreachableCase "Rholang collections are list set tuple map")

    | .send => do
      let nameNode ← getField node "channel"
      let sendTypeNode ← getField node "send_type"
      let inputsNode ← getField node "inputs"
      let sendType ←
        if sendTypeNode.kind == NodeKind.sendSingle then
          pure SendType.single
        else if sendTypeNode.kind == NodeKind.sendMultiple then
          pure SendType.multiple
        else
          .error (.unreachableCase "Send type can only be single or multiple")
      let arity := inputsNode.namedChildCount
      let st := st.pushK (.consumeSend sendType arity span)
      let st := st.pushK (.evalList inputsNode.namedChildren)
      .ok (st, some nameNode)

    | .newK => do
      let declsNode ← getField node "decls"
      let procNode ← getField node "proc"
      let declsRaw ← parseDecls declsNode
      let decls := sortDecls declsRaw
      let st :=
        match newDupError declsRaw with
        | some e => st.pushError e declsNode.span
        | none => st
      .ok (st.pushK (.consumeNew decls span), some procNode)

    | .contract => do
      let nameNode ← getField node "name"
      let procNode ← getField node "proc"
      let st ←
        match node.childByField "formals" with
        | some formalsNode => do
          let st := st.pushK (.consumeContract formalsNode.namedChildCount
            (formalsNode.childByField "cont").isSome span)
          pure (st.pushK (.evalList formalsNode.namedChildren))
        | none =>
          pure (st.pushK (.consumeContract 0 false span))
      .ok (st.pushK (.evalDelayed procNode), some nameNode)

    | .ifElse => do
      let conditionNode ← getField node "condition"
      let ifTrueNode ← getField node "consequence"
      let st :=
        match node.childByField "alternative" with
        | some alternativeNode =>
          (st.pushK (.consumeIfThenElse span)).pushK
            (.evalDelayed alternativeNode)
        | none =>
          st.pushK (.consumeIfThen span)
      .ok (st.pushK (.evalDelayed ifTrueNode), some conditionNode)

    | .input => do
      let receiptsNode ← getField node "receipts"
      let procNode ← getField node "proc"
      let folded ← receiptsNode.namedChildren.foldlM
        (fun (acc : List ReceiptDesc × List K) receiptNode => do
          let inner ← receiptNode.namedChildren.foldlM
            (fun (bacc : List BindDesc × Nat × List K) bindNode => do
              let (namesNode, sourceNode) ←
                if bindNode.namedChildCount > 1 then do
                  let (ns, s) ← getLeftAndRight bindNode
                  pure (some ns, s)
                else do
                  let s ← getFirstChild bindNode
                  pure ((none : Option Cst), s)
              let nameCount :=
                match namesNode with
                | some n => n.namedChildCount
                | none => 0
              let contPresent :=
                match namesNode with
                | some n => (n.childByField "cont").isSome
                | none => false
              let bindDesc ←
                if bindNode.kind == NodeKind.linearBind then do
                  let sourceDesc ←
                    if sourceNode.kind == NodeKind.simpleSource then
                      pure SourceDesc.simple
                    else if sourceNode.kind == NodeKind.receiveSendSource then
                      pure SourceDesc.rs
                    else if sourceNode.kind == NodeKind.sendReceiveSource then do
                      let inputsNode ← getField sourceNode "inputs"
                      pure (SourceDesc.sr inputsNode.namedChildCount)
                    else
                      .error (.unreachableCase
                        "Sources in for-comprehensions have three kinds")
                  pure (BindDesc.linear nameCount contPresent sourceDesc)
                else if bindNode.kind == NodeKind.repeatedBind then
                  pure (BindDesc.repeated nameCount contPresent)
                else if bindNode.kind == NodeKind.peekBind then
                  pure (BindDesc.peek nameCount contPresent)
                else
                  .error (.unreachableCase
                    "There are only three types of binds in for-comprehensions")
              let temp ←
                match bindDesc with
                | .linear _ _ source => do
                  let firstSource ← getFirstChild sourceNode
                  let temp := bacc.2.2 ++ [K.evalDelayed firstSource]
                  match source with
                  | .sr _ => do
                    let inputs ← getField sourceNode "inputs"
                    pure (temp ++ [K.evalList inputs.namedChildren])
                  | _ => pure temp
                | .repeated _ _ | .peek _ _ =>
                  pure (bacc.2.2 ++ [K.evalDelayed sourceNode])
              let temp :=
                match namesNode with
                | some names => temp ++ [K.evalList names.namedChildren]
                | none => temp
              pure (bacc.1 ++ [bindDesc], bacc.2.1 + bindDesc.arity, temp))
            (([], 0, acc.2) : List BindDesc × Nat × List K)
          pure (acc.1 ++ [ReceiptDesc.mk inner.1 inner.2.1], inner.2.2))
        (([], []) : List ReceiptDesc × List K)
      let rs := folded.1
      let temp := folded.2.reverse
      let st := st.pushK (.consumeForComprehension rs span)
      let st := st.appendK temp
      .ok (st, some procNode)

    | .matchK => do
      let expressionNode ← getField node "expression"
      let casesNode ← getField node "cases"
      let (arity, temp) ← evalNamedPairs casesNode .caseK "pattern" "proc"
      let st := st.pushK (.consumeMatch span arity)
      let st := st.appendK temp
      .ok (st, some expressionNode)

    | .letK => do
      let declsNode ← getField node "decls"
      let bodyNode ← getField node "proc"
      let concurrent := declsNode.kind == NodeKind.concDecls
      let folded ← declsNode.namedChildren.foldlM
        (fun (acc : DriverSt × List LetDecl × List K) declNode => do
          let (lhs, rhs) ← getLeftAndRight declNode
          let lhsArity := lhs.namedChildCount
          let rhsArity := rhs.namedChildCount
          let lhsHasCont := (lhs.childByField "cont").isSome
          let st :=
            if (lhsHasCont && lhsArity > rhsArity) || lhsArity ≠ rhsArity then
              acc.1.pushError (.malformedLetDecl lhsArity rhsArity)
                declNode.span
            else acc.1
          let temp := acc.2.2 ++
            [K.evalList lhs.namedChildren, K.evalList rhs.namedChildren]
          pure (st, acc.2.1 ++ [LetDecl.mk lhsArity lhsHasCont rhsArity], temp))
        ((st, [], []) : DriverSt × List LetDecl × List K)
      let st := folded.1
      let letDecls := folded.2.1
      let temp := folded.2.2.reverse
      let st := st.pushK (.consumeLet span concurrent letDecls)
      let st := st.appendK temp
      .ok (st, some bodyNode)

    | .bundle => do
      let bundleNode ← getField node "bundle_type"
      let typ ←
        if bundleNode.kind == NodeKind.bundleWrite then
          pure BundleType.bundleWrite
        else if bundleNode.kind == NodeKind.bundleRead then
          pure BundleType.bundleRead
        else if bundleNode.kind == NodeKind.bundleEquiv then
          pure BundleType.bundleEquiv
        else if bundleNode.kind == NodeKind.bundleReadWrite then
          pure BundleType.bundleReadWrite
        else
          .error (.unreachableCase "There are four bundle types in Rholang")
      let procNode ← getField node "proc"
      .ok (st.pushK (.consumeBundle span typ), some procNode)

    | .sendSync => do
      let nameNode ← getField node "channel"
      let messagesNode ← getField node "inputs"
      let arity := messagesNode.namedChildCount
      let syncSendContNode ← getField node "cont"
      let choiceNode ← getFirstChild syncSendContNode
      let st ←
        if choiceNode.kind == NodeKind.emptyCont then
          pure (st.pushK (.consumeSendSync span arity))
        else if choiceNode.kind == NodeKind.nonEmptyCont then do
          let contNode ← getFirstChild choiceNode
          let st := st.pushK (.consumeSendSyncWithCont span arity)
          pure (st.pushK (.evalDelayed contNode))
        else
          .error (.unreachableCase
            "Continuations of send_sync are either empty or non-empty")
      let st := st.pushK (.evalList messagesNode.namedChildren)
      .ok (st, some nameNode)

    | .varRef => do
      let (varRefKindNode, varNode) ← getLeftAndRight node
      let marker ← getFirstChild varRefKindNode
      let kindStr := marker.kind.name
      let varRefKind ←
        if kindStr == "=" then pure VarRefKind.proc
        else if kindStr == "=*" then pure VarRefKind.name
        else .error (.unreachableCase "var_ref_kind is one of two markers")
      let var : Id := ⟨getNodeValue varNode, varNode.span.startPos⟩
      .ok (st.pushProc (.varRef varRefKind var) span, none)

    | k => .error (.unimplementedKind k.name)

/-! ## The error-collection pass (`query_errors` local to `parsing.rs`)

`node_to_ast` calls the `query_errors` defined in `parsing.rs` itself
(its two-pattern query `(ERROR) @error-node (MISSING) @missing-node`), not
the three-pattern `query_errors` of `errors.rs` — it is not imported
there.  Tree recursion is fuel-indexed; any fuel at least the tree height
gives the source behavior. -/

/-- `Node::has_error`: whether the subtree contains an error or missing
node (tree-sitter's error flag).  Fuel pays one unit per tree level; any
fuel at least the height gives the source behavior. -/
def hasErr : Nat → Cst → Bool
  | 0, _ => false
  | fuel + 1, n =>
    n.isError || n.isMissing || n.children.any (hasErr fuel)

/-- `Node::to_sexp` (tree-sitter library behavior, modelled): the
s-expression shape of a node over its named children.  Only used as the
payload of generic `SyntaxError`s; no property below depends on the exact
rendering. -/
def toSexp : Nat → Cst → String
  | 0, _ => ""
  | fuel + 1, n =>
    if n.isMissing then "(MISSING " ++ n.kind.name ++ ")"
    else
      "(" ++ n.kind.name ++
        String.join (n.namedChildren.map (fun c => " " ++ toSexp fuel c)) ++
        ")"

/-- `ParsingError::from_error_node` (`errors.rs`): a single-character
unexpected token nested as an error child is reported as `Unexpected`;
anything else becomes a generic `SyntaxError` with the node's
s-expression. -/
def fromErrorNode (fuel : Nat) (node : Cst) : ParsingError :=
  match node.namedChildren.head? with
  | some child =>
    if child.isError then
      match child.text.data with
      | [c] => .unexpected c
      | _ => .syntaxError (toSexp fuel node)
    else .syntaxError (toSexp fuel node)
  | none => .syntaxError (toSexp fuel node)

/-- `AnnParsingError::from_error`. -/
def fromError (fuel : Nat) (node : Cst) : AnnParsingError :=
  ⟨fromErrorNode fuel node, node.span⟩

/-- `AnnParsingError::from_mising`. -/
def fromMissing (node : Cst) : AnnParsingError :=
  ⟨.missingToken node.kind.name, node.span⟩

/-- The traversal of the two-pattern query: every missing node is
reported; every error node is reported unless its parent is itself an
error node (the `skip UNEXPECTED` branch of the capture loop). -/
def queryErrorsNode : Nat → Bool → Cst → List AnnParsingError
  | 0, _, _ => []
  | fuel + 1, parentIsError, n =>
    (if n.isMissing then [fromMissing n] else []) ++
    (if n.isError && !parentIsError then [fromError fuel n] else []) ++
    (n.children.map (queryErrorsNode fuel n.isError)).flatten

/-- `query_errors` (`parsing.rs`): collect structural errors over the
whole subtree of the start node.  The start node has no parent inside the
queried subtree. -/
def queryErrors (fuel : Nat) (node : Cst) : List AnnParsingError :=
  queryErrorsNode fuel false node

/-! ## The driver loop (`node_to_ast` and `apply_cont`) -/

/-- `ProcStack::to_proc`: the parse result must be exactly one operand;
any other depth is the loud "parsing finished prematurely" panic. -/
def toProc (stack : List AnnProc) : Except Panic AnnProc :=
  match stack with
  | [p] => .ok p
  | _ => .error .prematureFinish

/-- `ProcStack::to_proc_partial`: the topmost operand, if any. -/
def toProcPartial (stack : List AnnProc) : Option AnnProc :=
  stack.head?

/-- The `Step::Done` epilogue of `node_to_ast`: run the error query when
the start node's subtree holds an error, fail with the batched non-empty
errors, or assert the single-result invariant and succeed. -/
def finalize (treeFuel : Nat) (startNode : Cst) (st : DriverSt) :
    Except Panic Validated :=
  match (if hasErr treeFuel startNode then
           st.errors ++ queryErrors treeFuel startNode
         else st.errors) with
  | [] => do
    let last ← toProc st.procStack
    .ok (.good last)
  | e :: es =>
    .ok (.fail ⟨toProcPartial st.procStack, e :: es⟩)

/-- Machine mode: `classifyM` is the top of the outer `'parse` loop with
the given cursor; `drainM` is the inner drain-continuations loop. -/
inductive Mode where
  | classifyM (node : Cst)
  | drainM

/-- The fuel-indexed driver loop.  One unit of fuel pays for one
classification, one drain action, or one iteration of the `ConsumeLet`
collection; `Except.ok none` means the fuel ran out.  Every action other
than the `ConsumeLet` collection consumes a node or a continuation, so
only a diverging collection can exhaust every fuel. -/
def run (treeFuel : Nat) (startNode : Cst) :
    Nat → Mode → DriverSt → Except Panic (Option Validated)
  | 0, _, _ => .ok none
  | fuel + 1, .classifyM node, st => do
    let (st', next) ← classify node st
    match next with
    | some n => run treeFuel startNode fuel (.classifyM n) st'
    | none => run treeFuel startNode fuel .drainM st'
  | fuel + 1, .drainM, st =>
    match st.contStack with
    | [] => (finalize treeFuel startNode st).map some
    | K.evalDelayed n :: ks =>
      run treeFuel startNode fuel (.classifyM n)
        { st with contStack := ks }
    | K.evalList pending :: ks =>
      match pending with
      | [] => run treeFuel startNode fuel .drainM { st with contStack := ks }
      | c :: rest =>
        run treeFuel startNode fuel (.classifyM c)
          { st with contStack := K.evalList rest :: ks }
    | K.consumeLet span concurrent letDecls :: ks =>
      match applyConsumeLet fuel span concurrent letDecls st.procStack with
      | .error p => .error p
      | .ok none => .ok none
      | .ok (some stack2) =>
        run treeFuel startNode fuel .drainM
          { st with contStack := ks, procStack := stack2 }
    | k :: ks => do
      let stack' ← applyConsume k st.procStack
      run treeFuel startNode fuel .drainM
        { st with contStack := ks, procStack := stack' }

/-- `node_to_ast`: run the driver on one top-level CST node with fresh
stacks and no accumulated errors. -/
def nodeToAst (fuel : Nat) (startNode : Cst) :
    Except Panic (Option Validated) :=
  run fuel startNode fuel (.classifyM startNode) ⟨[], [], []⟩

/-! ## Concrete CST builders (for the example inputs below) -/

/-- An ordinary named node with no field label. -/
def node (kind : NodeKind) (span : SourceSpan) (children : List Cst) : Cst :=
  .mk kind true none false false span "" children

/-- A named leaf carrying its span text. -/
def leaf (kind : NodeKind) (span : SourceSpan) (text : String) : Cst :=
  .mk kind true none false false span text []

/-- Attach a field label to a node (the parent-edge field name). -/
def Cst.withField (c : Cst) (f : String) : Cst :=
  match c with
  | .mk k n _ e m s t ch => .mk k n (some f) e m s t ch

/-- An ERROR node (tree-sitter error recovery). -/
def errorNode (span : SourceSpan) (text : String) (children : List Cst) :
    Cst :=
  .mk .errorK true none true false span text children

/-- A MISSING token node of the given grammar kind. -/
def missingNode (kind : NodeKind) (span : SourceSpan) : Cst :=
  .mk kind true none false true span "" []

end Rholang

namespace Rholang

/-! ## Example inputs

Concrete CSTs for the example programs the claims mention.  The
tree-sitter grammar that produces CSTs from program text is an external
collaborator (not part of the provided sources); these trees follow the
node shapes the spec and the driver's own field accesses document. -/

/-- CST of `for (x <- ch!?()) { Nil }`: one receipt with one linear bind
whose source is a send-receive source with zero inputs. -/
def srForZeroCst : Cst :=
  node .input (sp 1 1 1 26)
    [(node (.anon "receipts") (sp 1 6 1 17)
       [node (.anon "receipt") (sp 1 6 1 17)
         [node .linearBind (sp 1 6 1 17)
           [node (.anon "names") (sp 1 6 1 7)
             [leaf .var (sp 1 6 1 7) "x"],
            node .sendReceiveSource (sp 1 11 1 17)
             [leaf .var (sp 1 11 1 13) "ch",
              (node (.anon "inputs") (sp 1 15 1 17) []).withField "inputs"]]]])
      |>.withField "receipts",
     (node .block (sp 1 19 1 26)
       [leaf .nil (sp 1 21 1 24) "Nil"]) |>.withField "proc"]

/-- CST of `for (x <- ch!?(42)) { Nil }`: as above with one input. -/
def srForOneCst : Cst :=
  node .input (sp 1 1 1 28)
    [(node (.anon "receipts") (sp 1 6 1 19)
       [node (.anon "receipt") (sp 1 6 1 19)
         [node .linearBind (sp 1 6 1 19)
           [node (.anon "names") (sp 1 6 1 7)
             [leaf .var (sp 1 6 1 7) "x"],
            node .sendReceiveSource (sp 1 11 1 19)
             [leaf .var (sp 1 11 1 13) "ch",
              (node (.anon "inputs") (sp 1 15 1 19)
                [leaf .longLiteral (sp 1 16 1 18) "42"]).withField "inputs"]]]])
      |>.withField "receipts",
     (node .block (sp 1 21 1 28)
       [leaf .nil (sp 1 23 1 26) "Nil"]) |>.withField "proc"]

/-- CST of `let x, ...@y <- 1, 2, 3 in { Nil }`: one declaration with a
remainder variable on the left and more values than patterns on the
right. -/
def letRemCst : Cst :=
  node .letK (sp 1 1 1 35)
    [(node (.anon "linear_decls") (sp 1 5 1 24)
       [node (.anon "let_decl") (sp 1 5 1 24)
         [node (.anon "names") (sp 1 5 1 13)
           [leaf .var (sp 1 5 1 6) "x",
            (leaf .var (sp 1 12 1 13) "y").withField "cont"],
          node (.anon "procs") (sp 1 17 1 24)
           [leaf .longLiteral (sp 1 17 1 18) "1",
            leaf .longLiteral (sp 1 20 1 21) "2",
            leaf .longLiteral (sp 1 23 1 24) "3"]]])
      |>.withField "decls",
     (node .block (sp 1 28 1 35)
       [leaf .nil (sp 1 30 1 33) "Nil"]) |>.withField "proc"]

/-- The operand stack the driver has built when the `ConsumeLet`
continuation of `letRemCst` fires (top of the stack first): the three
rhs literals above the two lhs operands above the body. -/
def letRemStack : List AnnProc :=
  [.mk (.longLiteral 3) (sp 1 23 1 24),
   .mk (.longLiteral 2) (sp 1 20 1 21),
   .mk (.longLiteral 1) (sp 1 17 1 18),
   .mk (.procVar (.id ⟨"y", ⟨1, 12⟩⟩)) (sp 1 12 1 13),
   .mk (.procVar (.id ⟨"x", ⟨1, 5⟩⟩)) (sp 1 5 1 6),
   .mk .nil (sp 1 30 1 33)]

/-- The error the `let` descent records for `letRemCst`. -/
def letRemErrs : List AnnParsingError :=
  [⟨.malformedLetDecl 2 3, sp 1 5 1 24⟩]

/-- The `LetDeclIter` starting state of `letRemCst`'s combination step:
the single declaration `⟨2, true, 3⟩` over its five operands. -/
def letRemDeclSt : LetDeclIterSt :=
  ⟨[⟨2, true, 3⟩],
   [.mk (.procVar (.id ⟨"x", ⟨1, 5⟩⟩)) (sp 1 5 1 6),
    .mk (.procVar (.id ⟨"y", ⟨1, 12⟩⟩)) (sp 1 12 1 13),
    .mk (.longLiteral 1) (sp 1 17 1 18),
    .mk (.longLiteral 2) (sp 1 20 1 21),
    .mk (.longLiteral 3) (sp 1 23 1 24)], none⟩

/-- The tail of values `letRemCst`'s remainder variable captures. -/
def letRemTail : List AnnProc :=
  [.mk (.longLiteral 2) (sp 1 20 1 21),
   .mk (.longLiteral 3) (sp 1 23 1 24)]

/-- A grammar ERROR node whose sole content is a bare `var` token. -/
def errVarCst : Cst :=
  errorNode (sp 1 1 1 5) "oops" [leaf .var (sp 1 1 1 5) "oops"]

/-- CST of `[1, 2, ...rest]`. -/
def listRemCst : Cst :=
  node .collection (sp 1 1 1 16)
    [node .list (sp 1 1 1 16)
      [leaf .longLiteral (sp 1 2 1 3) "1",
       leaf .longLiteral (sp 1 5 1 6) "2",
       (leaf .var (sp 1 11 1 15) "rest").withField "remainder"]]

/-- CST of `[1, 2, 3]`. -/
def listThreeCst : Cst :=
  node .collection (sp 1 1 1 10)
    [node .list (sp 1 1 1 10)
      [leaf .longLiteral (sp 1 2 1 3) "1",
       leaf .longLiteral (sp 1 5 1 6) "2",
       leaf .longLiteral (sp 1 8 1 9) "3"]]

/-- CST of `new a, b, a in { Nil }` with a duplicated declaration. -/
def newDupCst : Cst :=
  node .newK (sp 1 1 1 23)
    [(node (.anon "name_decls") (sp 1 5 1 12)
       [node (.anon "name_decl") (sp 1 5 1 6)
         [leaf .var (sp 1 5 1 6) "a"],
        node (.anon "name_decl") (sp 1 8 1 9)
         [leaf .var (sp 1 8 1 9) "b"],
        node (.anon "name_decl") (sp 1 11 1 12)
         [leaf .var (sp 1 11 1 12) "a"]])
      |>.withField "decls",
     (node .block (sp 1 16 1 23)
       [leaf .nil (sp 1 18 1 21) "Nil"]) |>.withField "proc"]

/-- CST of an overflowing literal composed in parallel with `Nil`:
`9999999999999999999999999 | Nil`. -/
def overflowParCst : Cst :=
  node .par (sp 1 1 1 30)
    [leaf .longLiteral (sp 1 1 1 26) "9999999999999999999999999",
     leaf .nil (sp 1 29 1 32) "Nil"]

/-- A missing closing-brace token, as tree-sitter inserts for an
unbalanced snippet. -/
def missingBraceCst : Cst := missingNode (.anon "\x7d") (sp 1 5 1 5)

/-- A string literal whose span text carries two quote pairs on each
side. -/
def doubleQuoteStrCst : Cst := leaf .stringLiteral (sp 1 1 1 9) "\"\"ab\"\""

/-- A URI literal whose span text carries two backtick pairs on each
side. -/
def doubleTickUriCst : Cst := leaf .uriLiteral (sp 1 1 1 8) "``u``"

/-- The canonical CST shape of a `key_value_pair` child of a map
collection: key and value become the children designated by the two field
selectors. -/
def mkKvpNode (kvSpan : SourceSpan) (key value : Cst) : Cst :=
  node .keyValuePair kvSpan [key.withField "key", value.withField "value"]

/-- The canonical CST shape of a map collection with a trailing remainder:
`collection` wrapping a `map` node whose named children are the pair nodes
followed by the remainder child. -/
def mkMapCollNode (span mspan : SourceSpan) (kvs : List (SourceSpan × Cst × Cst))
    (remNode : Cst) : Cst :=
  node .collection span
    [node .mapK mspan
      (kvs.map (fun kv => mkKvpNode kv.1 kv.2.1 kv.2.2) ++
        [remNode.withField "remainder"])]

/-! ## Theorems -/

/-- Claim C1: the driver's balanced-consumption / single-result invariant
is violated by the code: for the error-free input
`for (x <- ch!?()) { Nil }` the descent of the linear bind with a
send-receive source pushes one more operand than `BindDesc::arity` counts
(`SourceDesc::arity` for `SR` returns only the input count, omitting the
channel operand), so when the continuation stack empties the operand stack
holds two entries and `ProcStack::to_proc` hits its loud
"parsing finished prematurely" assertion instead of returning a result. -/
theorem c1_send_receive_unbalances_driver :
    nodeToAst 60 srForZeroCst = .error .prematureFinish := rfl

/-- Claim C2: the public parse entry point does panic on an input string:
on the error-free input `for (x <- ch!?(42)) { Nil }` the same
send-receive arity slip shifts the operand batch by one, the literal `42`
lands in the channel position of the bind, and the driver panics through
`expect("expected a name")` rather than returning a value. -/
theorem c2_send_receive_panics_on_valid_input :
    nodeToAst 60 srForOneCst = .error (.expectFail "expected a name") := rfl

/-- `consCollect` of an out-of-fuel collection is out of fuel. -/
theorem consCollect_none (b : LetBinding)
    (r : Except Panic (Option (List LetBinding))) (h : r = .ok none) :
    consCollect b r = .ok none := by
  rw [h]
  rfl

/-- `finishLet` of an out-of-fuel collection is out of fuel. -/
theorem finishLet_none (span : SourceSpan) (c : Bool) (body : AnnProc)
    (rest : List AnnProc) (r : Except Panic (Option (List LetBinding)))
    (h : r = .ok none) : finishLet span c body rest r = .ok none := by
  rw [h]
  rfl

/-- A `LetBindingIter` whose zip is exhausted but whose tail is still set
yields the `Multiple` binding on every call, so the collection exhausts
any fuel. -/
theorem collectLetBindings_tail_stuck (outer : List LetDecl)
    (procs tl : List AnnProc) (v : Var) :
    ∀ fuel,
      collectLetBindings fuel ⟨outer, procs, some ⟨[], some (v, tl)⟩⟩ =
        .ok none
  | 0 => rfl
  | fuel + 1 =>
    consCollect_none _ _
      (collectLetBindings_tail_stuck outer procs tl v fuel)

/-- At `letRemCst`'s combination step the collection runs out of every
fuel: `new` slices the declaration, one `Single` binding is yielded, and
then the remainder tail sticks. -/
theorem collect_letRem_none : ∀ fuel,
    collectLetBindings fuel letRemDeclSt = .ok none
  | 0 => rfl
  | 1 => rfl
  | fuel + 2 =>
    consCollect_none _ _
      (collectLetBindings_tail_stuck [] [] letRemTail
        (.id ⟨"y", ⟨1, 12⟩⟩) fuel)

/-- The `ConsumeLet` combination for `letRemCst` never completes,
whatever the fuel. -/
theorem applyConsumeLet_letRem_none (fuel : Nat) :
    applyConsumeLet fuel (sp 1 1 1 35) false [⟨2, true, 3⟩] letRemStack =
      .ok none :=
  finishLet_none _ _ _ _ _ (collect_letRem_none fuel)

/-- With at least 16 units of fuel the driver on `letRemCst` descends,
evaluates every operand, reaches the `ConsumeLet` combination, and hands
the remaining fuel to the diverging collection. -/
theorem letRem_run_none (tf m : Nat) :
    run tf letRemCst (m + 16) (.classifyM letRemCst) ⟨[], [], []⟩ =
      .ok none := by
  have key : run tf letRemCst (m + 16) (.classifyM letRemCst) ⟨[], [], []⟩ =
      ((match applyConsumeLet m (sp 1 1 1 35) false [⟨2, true, 3⟩]
          letRemStack with
        | .error p => .error p
        | .ok none => .ok none
        | .ok (some stack2) =>
          run tf letRemCst m .drainM
            { procStack := stack2, contStack := [],
              errors := letRemErrs }) :
        Except Panic (Option Validated)) := rfl
  rw [key, applyConsumeLet_letRem_none m]

/-- Claim C4 (the code diverges from the claim at the failing input
`let x, ...@y <- 1, 2, 3 in { Nil }` in two ways): (a) the left-hand
pattern declares a remainder and its arity 2 is at most the right-hand
count 3, so no `MalformedLetDecl` should be recorded, yet the descent
records `MalformedLetDecl{lhs_arity: 2, rhs_arity: 3}` (the code's
condition degenerates to `lhs_arity != rhs_arity`); (b) no tree is
returned at all: once its zip is exhausted the remainder-bearing
`LetBindingIter` yields the `Multiple` binding with its tail still set,
so the collection step never finishes and the parse exhausts every
fuel. -/
theorem c4_let_remainder_flagged_malformed :
    ((classify letRemCst ⟨[], [], []⟩).map (fun p => p.1.errors) =
      .ok [⟨.malformedLetDecl 2 3, sp 1 5 1 24⟩]) ∧
    (letBindingIterNext ⟨[], some (.id ⟨"y", ⟨1, 12⟩⟩, letRemTail)⟩ =
      .ok (some (.multiple (.id ⟨"y", ⟨1, 12⟩⟩) letRemTail,
        ⟨[], some (.id ⟨"y", ⟨1, 12⟩⟩, letRemTail)⟩))) ∧
    (∀ fuel, nodeToAst fuel letRemCst = .ok none) := by
  refine ⟨rfl, rfl, ?_⟩
  intro fuel
  rcases Nat.lt_or_ge fuel 16 with hlt | hge
  · interval_cases fuel <;> rfl
  · obtain ⟨m, rfl⟩ := Nat.exists_eq_add_of_le hge
    rw [Nat.add_comm 16 m]
    exact letRem_run_none (m + 16) m

/-- Claim C6: `[1, 2, ...rest]` parses to a `List` with exactly the two
literal elements and remainder `Some(Var::Id("rest"))`, while `[1, 2, 3]`
parses to a `List` with three elements and no remainder. -/
theorem c6_list_remainder_splitting :
    nodeToAst 30 listRemCst =
      .ok (some (.good (.mk (.collection (.listC
        [.mk (.longLiteral 1) (sp 1 2 1 3), .mk (.longLiteral 2) (sp 1 5 1 6)]
        (some (.id ⟨"rest", ⟨1, 11⟩⟩)))) (sp 1 1 1 16)))) ∧
    nodeToAst 30 listThreeCst =
      .ok (some (.good (.mk (.collection (.listC
        [.mk (.longLiteral 1) (sp 1 2 1 3), .mk (.longLiteral 2) (sp 1 5 1 6),
         .mk (.longLiteral 3) (sp 1 8 1 9)]
        none)) (sp 1 1 1 10)))) :=
  ⟨rfl, rfl⟩


/-- The `Step::Done` epilogue only builds a failure from a non-empty
error list (`NEVec::try_from_vec`). -/
theorem finalize_fail_errors_ne_nil (tf : Nat) (start : Cst) (st : DriverSt)
    (f : ParsingFailure) (h : finalize tf start st = .ok (.fail f)) :
    f.errors ≠ [] := by
  unfold finalize at h
  split at h
  · cases htp : toProc st.procStack with
    | error e => rw [htp] at h; exact Except.noConfusion h
    | ok p => rw [htp] at h; exact Validated.noConfusion (Except.ok.inj h)
  · simp only [Except.ok.injEq, Validated.fail.injEq] at h
    subst h
    simp

/-- Every failure the driver loop can return carries a non-empty error
list, at any fuel, mode and state. -/
theorem run_fail_errors_ne_nil (tf : Nat) (start : Cst) :
    ∀ (fuel : Nat) (mode : Mode) (st : DriverSt) (f : ParsingFailure),
      run tf start fuel mode st = .ok (some (.fail f)) → f.errors ≠ [] := by
  intro fuel
  induction fuel with
  | zero =>
    intro mode st f h
    simp [run] at h
  | succ fuel ih =>
    intro mode st f h
    cases mode with
    | classifyM nodeC =>
      rw [run] at h
      cases hc : classify nodeC st with
      | error p => rw [hc] at h; exact Except.noConfusion h
      | ok r =>
        rw [hc] at h
        obtain ⟨st', next⟩ := r
        cases next with
        | some n => exact ih _ _ _ h
        | none => exact ih _ _ _ h
    | drainM =>
      rw [run] at h
      cases hk : st.contStack with
      | nil =>
        rw [hk] at h
        cases hf : finalize tf start st with
        | error p => rw [hf] at h; exact Except.noConfusion h
        | ok v =>
          rw [hf] at h
          cases v with
          | good p =>
            exact Validated.noConfusion (Option.some.inj (Except.ok.inj h))
          | fail f' =>
            have hff : f' = f :=
              Validated.fail.inj (Option.some.inj (Except.ok.inj h))
            subst hff
            exact finalize_fail_errors_ne_nil tf start st f' hf
      | cons k ks =>
        rw [hk] at h
        cases k
        case evalDelayed n => exact ih _ _ _ h
        case evalList pending =>
          cases pending with
          | nil => exact ih _ _ _ h
          | cons c rest => exact ih _ _ _ h
        case consumeLet span concurrent letDecls =>
          replace h : ((match applyConsumeLet fuel span concurrent letDecls
                st.procStack with
              | .error p => .error p
              | .ok none => .ok none
              | .ok (some stack2) =>
                run tf start fuel .drainM
                  { st with contStack := ks, procStack := stack2 }) :
              Except Panic (Option Validated)) =
              .ok (some (.fail f)) := h
          cases ha : applyConsumeLet fuel span concurrent letDecls
              st.procStack with
          | error p => rw [ha] at h; exact Except.noConfusion h
          | ok o =>
            rw [ha] at h
            cases o with
            | none => exact Option.noConfusion (Except.ok.inj h)
            | some stack2 => exact ih _ _ _ h
        all_goals
          replace h : Except.bind (applyConsume _ st.procStack)
              (fun stack2 => run tf start fuel .drainM
                { st with contStack := ks, procStack := stack2 }) =
              .ok (some (.fail f)) := h
        all_goals
          cases ha : applyConsume _ st.procStack <;> rw [ha] at h
        all_goals
          first
          | exact Except.noConfusion h
          | exact ih _ _ _ h

/-- Claim C3: for every input and fuel, a parse that returns a
`ParsingFailure` returns it with a non-empty errors list. -/
theorem c3_failure_errors_nonempty (fuel : Nat) (startNode : Cst)
    (f : ParsingFailure)
    (h : nodeToAst fuel startNode = .ok (some (.fail f))) :
    f.errors ≠ [] :=
  run_fail_errors_ne_nil fuel startNode fuel (.classifyM startNode)
    ⟨[], [], []⟩ f h

/-- Witness for C3 at a concrete failing input: the missing-brace token
parses to a failure whose error list is the non-empty
`[MissingToken "}"]`. -/
theorem c3_failure_errors_nonempty_witness :
    nodeToAst 20 missingBraceCst =
      .ok (some (.fail ⟨some (.mk .bad (sp 1 5 1 5)),
        [⟨.missingToken "\x7d", sp 1 5 1 5⟩]⟩)) ∧
    ([(⟨.missingToken "\x7d", sp 1 5 1 5⟩ : AnnParsingError)] :
        List AnnParsingError) ≠ [] :=
  ⟨rfl, c3_failure_errors_nonempty 20 missingBraceCst
    ⟨some (.mk .bad (sp 1 5 1 5)), [⟨.missingToken "\x7d", sp 1 5 1 5⟩]⟩ rfl⟩

/-- A run of decimal digits whose value exceeds `i64::MAX` fails Rust's
`str::parse::<i64>`. -/
theorem parseI64_overflow (cs : List Char)
    (h2 : cs.all Char.isDigit = true)
    (h3 : (2 : Int) ^ 63 - 1 < (digitsVal cs : Int)) :
    parseI64 ⟨cs⟩ = none := by
  have hbound : parseI64Digits 1 cs = none → parseI64 ⟨cs⟩ = none := by
    intro hnone
    unfold parseI64
    split
    · rename_i rest heq
      exfalso
      have heq' : cs = '+' :: rest := heq
      subst heq'
      simp [List.all_cons] at h2
    · rename_i rest heq
      exfalso
      have heq' : cs = '-' :: rest := heq
      subst heq'
      simp [List.all_cons] at h2
    · show parseI64Digits 1 cs = none
      exact hnone
  refine hbound ?_
  unfold parseI64Digits
  cases cs with
  | nil => simp [digitsVal] at h3
  | cons c rest =>
    rw [if_neg (by simp), if_pos h2, if_neg]
    intro hcond
    have hle := hcond.2
    rw [one_mul] at hle
    omega

/-- Claim C9: for every numeric literal whose digits exceed the 64-bit
signed range, classification records a `NumberOutOfRange` error with the
literal's span and pushes the `Bad` sentinel at that span; concretely,
`9999999999999999999999999 | Nil` fails with exactly that error while the
right branch of the `Par` still parses to `Nil`. -/
theorem c9_number_out_of_range :
    (∀ (f : Option String) (span : SourceSpan) (cs : List Char)
       (ch : List Cst) (st : DriverSt),
       cs.all Char.isDigit = true →
       (2 : Int) ^ 63 - 1 < (digitsVal cs : Int) →
       classify (Cst.mk .longLiteral true f false false span ⟨cs⟩ ch) st =
         .ok ((st.pushError .numberOutOfRange span).pushProc BAD span,
           none)) ∧
    nodeToAst 30 overflowParCst =
      .ok (some (.fail ⟨some (.mk (.par (.mk .bad (sp 1 1 1 26))
          (.mk .nil (sp 1 29 1 32))) (sp 1 1 1 30)),
        [⟨.numberOutOfRange, sp 1 1 1 26⟩]⟩)) := by
  constructor
  · intro f span cs ch st h2 h3
    have hp : parseI64 ⟨cs⟩ = none := parseI64_overflow cs h2 h3
    simp [classify, Cst.isError, Cst.isMissing, Cst.kind, Cst.span,
      Cst.text, getNodeValue, hp]
  · rfl

/-- Witness for C9: the general branch applied to the 25-digit literal of
the concrete input. -/
theorem c9_number_out_of_range_witness :
    classify (Cst.mk .longLiteral true none false false (sp 1 1 1 26)
        "9999999999999999999999999" []) ⟨[], [], []⟩ =
      .ok (((⟨[], [], []⟩ : DriverSt).pushError .numberOutOfRange
          (sp 1 1 1 26)).pushProc BAD (sp 1 1 1 26), none) :=
  c9_number_out_of_range.1 none (sp 1 1 1 26)
    ("9999999999999999999999999".data) [] ⟨[], [], []⟩
    (by decide) (by decide)

/-- Claim C10: the stored text of every string literal is the span text
with every leading and every trailing double quote removed, the stored
text of every URI literal likewise with backticks, and the stored text
never starts or ends with the trimmed character — concretely, the span
text `""ab""` is stored as `ab` (both quote pairs stripped, not just the
delimiting one) and ```` ``u`` ```` as `u`. -/
theorem c10_literal_trimming :
    (∀ s, allocStringLiteral s =
      .stringLiteral (trimMatches (fun c => c == quoteChar) s)) ∧
    (∀ s, allocUriLiteral s =
      .uriLiteral (trimMatches (fun c => c == backtickChar) s)) ∧
    (∀ (p : Char → Bool) (s : String) (c : Char),
      (trimMatches p s).data.head? = some c → p c = false) ∧
    (∀ (p : Char → Bool) (s : String) (c : Char),
      (trimMatches p s).data.getLast? = some c → p c = false) ∧
    nodeToAst 20 doubleQuoteStrCst =
      .ok (some (.good (.mk (.stringLiteral "ab") (sp 1 1 1 9)))) ∧
    nodeToAst 20 doubleTickUriCst =
      .ok (some (.good (.mk (.uriLiteral "u") (sp 1 1 1 8)))) := by
  refine ⟨fun s => rfl, fun s => rfl, ?head, ?last, rfl, rfl⟩
  case head =>
    intro p s c hc
    have hpre : List.rdropWhile p (s.data.dropWhile p) <+:
        (s.data.dropWhile p) := List.rdropWhile_prefix _ _
    obtain ⟨t, ht⟩ := hpre
    have hhead : (s.data.dropWhile p).head? = some c := by
      rw [← ht, List.head?_append]
      have hc' : (List.rdropWhile p (s.data.dropWhile p)).head? = some c := hc
      rw [hc']
      rfl
    have hmatch := List.head?_dropWhile_not p s.data
    rw [hhead] at hmatch
    exact hmatch
  case last =>
    intro p s c hc
    have hc' : (List.dropWhile p ((s.data.dropWhile p).reverse)).head? =
        some c := by
      have := hc
      rw [show (trimMatches p s).data =
        ((s.data.dropWhile p).reverse.dropWhile p).reverse from rfl] at this
      rwa [List.getLast?_reverse] at this
    have hmatch := List.head?_dropWhile_not p (s.data.dropWhile p).reverse
    rw [hc'] at hmatch
    exact hmatch

/-- Witness for C10: the head/last branches applied at the concrete
trimmed string `""ab""`, whose stored form is `ab`. -/
theorem c10_literal_trimming_witness :
    ((fun c => c == quoteChar) 'a') = false ∧
    ((fun c => c == quoteChar) 'b') = false :=
  ⟨c10_literal_trimming.2.2.1 (fun c => c == quoteChar)
      "\"\"ab\"\"" 'a' rfl,
   c10_literal_trimming.2.2.2.1 (fun c => c == quoteChar)
      "\"\"ab\"\"" 'b' rfl⟩

/-- The live error-collection pass can only produce `MissingToken`,
`Unexpected` and `SyntaxError` items: its query has no variable pattern. -/
theorem queryErrorsNode_no_unexpected_var :
    ∀ (fuel : Nat) (pe : Bool) (n : Cst) (e : AnnParsingError),
      e ∈ queryErrorsNode fuel pe n → ∀ v, e.error ≠ .unexpectedVar v := by
  intro fuel
  induction fuel with
  | zero =>
    intro pe n e he v
    simp [queryErrorsNode] at he
  | succ fuel ih =>
    intro pe n e he v
    rw [queryErrorsNode] at he
    simp only [List.mem_append] at he
    rcases he with (he | he) | he
    · split at he
      · simp only [List.mem_singleton] at he
        subst he
        simp [fromMissing]
      · simp at he
    · split at he
      · simp only [List.mem_singleton] at he
        subst he
        unfold fromError fromErrorNode
        split
        · split
          · split <;> simp
          · simp
        · simp
      · simp at he
    · simp only [List.mem_flatten, List.mem_map] at he
      obtain ⟨l, ⟨c, hc, rfl⟩, hel⟩ := he
      exact ih _ _ _ hel v

/-- Claim C5 (amended): an error node whose sole content is a bare `var`
token is reported by the live collection pass as a generic `SyntaxError`
carrying the node's s-expression — and the pass never emits an
`UnexpectedVar` error for any input. -/
theorem c5_error_var_reported_as_syntax_error :
    (∀ (fuel : Nat) (n v : Cst),
      n.isError = true → n.isMissing = false →
      n.children = [v] → v.isNamed = true →
      v.isError = false → v.isMissing = false → v.children = [] →
      queryErrorsNode (fuel + 1) false n =
        [⟨.syntaxError (toSexp fuel n), n.span⟩]) ∧
    (∀ (fuel : Nat) (pe : Bool) (n : Cst) (e : AnnParsingError)
       (s : String),
      e ∈ queryErrorsNode fuel pe n → e.error ≠ .unexpectedVar s) := by
  constructor
  · intro fuel n v hne hnm hch hvn hve hvm hvch
    have hvq : queryErrorsNode fuel true v = [] := by
      cases fuel with
      | zero => rfl
      | succ fuel => simp [queryErrorsNode, hve, hvm, hvch]
    have hnamed : n.namedChildren = [v] := by
      simp [Cst.namedChildren, hch, List.filter, hvn]
    rw [queryErrorsNode]
    simp only [hnm, hne, hch, if_false, Bool.not_false, Bool.and_true,
      if_true, List.map_cons, List.map_nil, List.flatten, hvq]
    simp [fromError, fromErrorNode, hnamed, hve]
  · intro fuel pe n e s he
    exact queryErrorsNode_no_unexpected_var fuel pe n e he s

/-- Witness for C5: the amended reporting applied at the concrete
`(ERROR (var))` input, and the never-`UnexpectedVar` branch applied to its
reported error. -/
theorem c5_error_var_reported_witness :
    queryErrorsNode 3 false errVarCst =
      [⟨.syntaxError (toSexp 2 errVarCst), sp 1 1 1 5⟩] ∧
    (⟨.syntaxError "(ERROR (var))", sp 1 1 1 5⟩ :
        AnnParsingError).error ≠ .unexpectedVar "oops" :=
  ⟨c5_error_var_reported_as_syntax_error.1 2 errVarCst
      (leaf .var (sp 1 1 1 5) "oops") rfl rfl rfl rfl rfl rfl rfl,
   c5_error_var_reported_as_syntax_error.2 3 false errVarCst
      ⟨.syntaxError "(ERROR (var))", sp 1 1 1 5⟩ "oops" (by decide)⟩

/-- Counterexample to C5 as stated: for the input whose CST is an ERROR
node holding a bare variable token `oops`, the returned error list is a
single generic `SyntaxError` with the node's s-expression — not an
"unexpected variable" error carrying the variable's text. -/
theorem c5_unexpected_var_counterexample :
    nodeToAst 20 errVarCst =
      .ok (some (.fail ⟨some (.mk .bad (sp 1 1 1 5)),
        [⟨.syntaxError "(ERROR (var))", sp 1 1 1 5⟩]⟩)) ∧
    ParsingError.syntaxError "(ERROR (var))" ≠
      ParsingError.unexpectedVar "oops" :=
  ⟨rfl, by decide⟩

theorem eBind_ok {e a b : Type} (x : a) (f : a → Except e b) :
    (Except.ok x >>= f) = f x := rfl

theorem eBind_error {e a b : Type} (err : e) (f : a → Except e b) :
    ((Except.error err : Except e a) >>= f) = .error err := rfl

theorem nodeKind_beq (a b : NodeKind) : (a == b) = (a.name == b.name) := rfl

theorem fieldName_withField (c : Cst) (f : String) :
    (c.withField f).fieldName = some f := by
  cases c; rfl

theorem isNamed_withField (c : Cst) (f : String) :
    (c.withField f).isNamed = c.isNamed := by
  cases c; rfl

theorem kind_withField (c : Cst) (f : String) :
    (c.withField f).kind = c.kind := by
  cases c; rfl

theorem span_withField (c : Cst) (f : String) :
    (c.withField f).span = c.span := by
  cases c; rfl

/-- Every generated `key_value_pair` node passes the named filter. -/
theorem filter_named_kvp (kvs : List (SourceSpan × Cst × Cst)) :
    (kvs.map (fun kv => mkKvpNode kv.1 kv.2.1 kv.2.2)).filter
      (·.isNamed) = kvs.map (fun kv => mkKvpNode kv.1 kv.2.1 kv.2.2) := by
  rw [List.filter_eq_self]
  intro a ha
  simp only [List.mem_map] at ha
  obtain ⟨kv, _, rfl⟩ := ha
  rfl

/-- Every generated `key_value_pair` node passes the kind filter. -/
theorem filter_kind_kvp (kvs : List (SourceSpan × Cst × Cst)) :
    (kvs.map (fun kv => mkKvpNode kv.1 kv.2.1 kv.2.2)).filter
      (fun c => c.kind == NodeKind.keyValuePair) =
      kvs.map (fun kv => mkKvpNode kv.1 kv.2.1 kv.2.2) := by
  rw [List.filter_eq_self]
  intro a ha
  simp only [List.mem_map] at ha
  obtain ⟨kv, _, rfl⟩ := ha
  rfl

/-- No generated `key_value_pair` node carries the `remainder` field. -/
theorem find_remainder_past_kvp (kvs : List (SourceSpan × Cst × Cst))
    (l : List Cst) :
    ((kvs.map (fun kv => mkKvpNode kv.1 kv.2.1 kv.2.2)) ++ l).find?
        (fun c => c.fieldName == some "remainder") =
      l.find? (fun c => c.fieldName == some "remainder") := by
  rw [List.find?_append]
  have hnone : (kvs.map (fun kv => mkKvpNode kv.1 kv.2.1 kv.2.2)).find?
      (fun c => c.fieldName == some "remainder") = none := by
    rw [List.find?_eq_none]
    intro x hx
    simp only [List.mem_map] at hx
    obtain ⟨kv, _, rfl⟩ := hx
    simp [mkKvpNode, node, Cst.fieldName]
  rw [hnone]
  rfl

/-- `eval_named_pairs` over generated pair nodes yields one pair per node,
pushing the key- and value-field children in child order. -/
theorem evalNamedPairsGo_kvp (kvs : List (SourceSpan × Cst × Cst)) :
    evalNamedPairsGo "key" "value"
        (kvs.map (fun kv => mkKvpNode kv.1 kv.2.1 kv.2.2)) =
      .ok (kvs.length, kvs.flatMap (fun kv =>
        [K.evalDelayed (kv.2.1.withField "key"),
         K.evalDelayed (kv.2.2.withField "value")])) := by
  induction kvs with
  | nil => rfl
  | cons kv rest ih =>
    have hkey : getField (mkKvpNode kv.1 kv.2.1 kv.2.2) "key" =
        .ok (kv.2.1.withField "key") := by
      simp [getField, mkKvpNode, node, Cst.childByField, Cst.children,
        List.find?, fieldName_withField]
    have hval : getField (mkKvpNode kv.1 kv.2.1 kv.2.2) "value" =
        .ok (kv.2.2.withField "value") := by
      simp [getField, mkKvpNode, node, Cst.childByField, Cst.children,
        List.find?, fieldName_withField]
    simp [evalNamedPairsGo, hkey, hval, ih, eBind_ok, Nat.add_comm]

/-- Claim C7: for a map collection with `k` key-value pairs, (a) the
descent pushes the remainder evaluation on top, then the `2k` key/value
evaluations in pair order, then a `ConsumeMap` continuation of arity `k`;
(b) with a remainder the combination step consumes a flat batch of
`2k + 1` operands, pairing the `2k` pair operands in evaluation order and
taking the last-popped (deepest) operand as the remainder when it is a
variable; (c) a non-variable remainder operand panics through
`expect("expected a var")`; (d) without a remainder exactly `2k` operands
are consumed and paired. -/
theorem c7_map_flat_batch :
    (∀ (span mspan : SourceSpan) (kvs : List (SourceSpan × Cst × Cst))
       (remNode : Cst) (st : DriverSt),
       remNode.isNamed = true →
       (remNode.kind == NodeKind.keyValuePair) = false →
       classify (mkMapCollNode span mspan kvs remNode) st =
         .ok ({ st with contStack :=
           K.evalDelayed (remNode.withField "remainder") ::
           (kvs.flatMap (fun kv =>
             [K.evalDelayed (kv.2.1.withField "key"),
              K.evalDelayed (kv.2.2.withField "value")]) ++
            K.consumeMap kvs.length true span :: st.contStack) }, none)) ∧
    (∀ (arity : Nat) (span : SourceSpan) (pairsFlat : List AnnProc)
       (rem : AnnProc) (v : Var) (rest : List AnnProc),
       pairsFlat.length = 2 * arity →
       rem.proc = .procVar v →
       applyConsume (.consumeMap arity true span)
           (pairsFlat.reverse ++ rem :: rest) =
         .ok (.mk (.collection (.mapC (toKeyValue pairsFlat) (some v)))
           span :: rest)) ∧
    (∀ (arity : Nat) (span : SourceSpan) (pairsFlat : List AnnProc)
       (rem : AnnProc) (rest : List AnnProc),
       pairsFlat.length = 2 * arity →
       (∀ w, rem.proc ≠ .procVar w) →
       applyConsume (.consumeMap arity true span)
           (pairsFlat.reverse ++ rem :: rest) =
         .error (.expectFail "expected a var")) ∧
    (∀ (arity : Nat) (span : SourceSpan) (pairsFlat : List AnnProc)
       (rest : List AnnProc),
       pairsFlat.length = 2 * arity →
       applyConsume (.consumeMap arity false span)
           (pairsFlat.reverse ++ rest) =
         .ok (.mk (.collection (.mapC (toKeyValue pairsFlat) none))
           span :: rest)) := by
  refine ⟨?classifyPart, ?remVar, ?remNotVar, ?noRem⟩
  case classifyPart =>
    intro span mspan kvs remNode st hnamed hkind
    have hfilterNamed :
        (kvs.map (fun kv => mkKvpNode kv.1 kv.2.1 kv.2.2) ++
          [remNode.withField "remainder"]).filter (·.isNamed) =
        kvs.map (fun kv => mkKvpNode kv.1 kv.2.1 kv.2.2) ++
          [remNode.withField "remainder"] := by
      rw [List.filter_append, filter_named_kvp]
      simp [List.filter, isNamed_withField, hnamed]
    have hfilterKind :
        ((kvs.map (fun kv => mkKvpNode kv.1 kv.2.1 kv.2.2) ++
          [remNode.withField "remainder"]).filter
            (fun c => c.kind == NodeKind.keyValuePair)) =
        kvs.map (fun kv => mkKvpNode kv.1 kv.2.1 kv.2.2) := by
      rw [List.filter_append, filter_kind_kvp]
      simp [List.filter, kind_withField, hkind]
    have hfind :
        (Cst.mk NodeKind.mapK true none false false mspan ""
          (kvs.map (fun kv => mkKvpNode kv.1 kv.2.1 kv.2.2) ++
            [remNode.withField "remainder"])).childByField "remainder" =
          some (remNode.withField "remainder") := by
      show (kvs.map (fun kv => mkKvpNode kv.1 kv.2.1 kv.2.2) ++
          [remNode.withField "remainder"]).find?
            (fun c => c.fieldName == some "remainder") = _
      rw [find_remainder_past_kvp]
      simp [List.find?, fieldName_withField]
    have hpairs :
        evalNamedPairs (Cst.mk NodeKind.mapK true none false false mspan ""
            (kvs.map (fun kv => mkKvpNode kv.1 kv.2.1 kv.2.2) ++
              [remNode.withField "remainder"])) .keyValuePair "key" "value" =
          .ok (kvs.length, (kvs.flatMap (fun kv =>
            [K.evalDelayed (kv.2.1.withField "key"),
             K.evalDelayed (kv.2.2.withField "value")])).reverse) := by
      unfold evalNamedPairs
      have hnck : namedChildrenOfKind
          (Cst.mk NodeKind.mapK true none false false mspan ""
            (kvs.map (fun kv => mkKvpNode kv.1 kv.2.1 kv.2.2) ++
              [remNode.withField "remainder"])) NodeKind.keyValuePair =
          kvs.map (fun kv => mkKvpNode kv.1 kv.2.1 kv.2.2) := by
        unfold namedChildrenOfKind
        show ((kvs.map (fun kv => mkKvpNode kv.1 kv.2.1 kv.2.2) ++
            [remNode.withField "remainder"]).filter (·.isNamed)).filter
            (fun c => c.kind == NodeKind.keyValuePair) = _
        rw [hfilterNamed, hfilterKind]
      rw [hnck, evalNamedPairsGo_kvp]
      rfl
    simp only [classify, mkMapCollNode, node, getFirstChild,
      Cst.namedChildren, Cst.children, Cst.isNamed, Cst.isError,
      Cst.isMissing, Cst.kind, List.filter, List.head?, Bool.or_self,
      Bool.false_eq_true, if_false, eBind_ok, eBind_error]
    simp only [show (NodeKind.mapK == NodeKind.list) = false from rfl,
      show (NodeKind.mapK == NodeKind.setK) = false from rfl,
      show (NodeKind.mapK == NodeKind.tuple) = false from rfl,
      show (NodeKind.mapK == NodeKind.mapK) = true from rfl,
      Bool.false_eq_true, if_false, if_true]
    rw [hfind]
    rw [hpairs]
    simp only [eBind_ok, Option.isSome_some, DriverSt.pushK,
      DriverSt.appendK, List.reverse_reverse]
    rfl
  case remVar =>
    intro arity span pairsFlat rem v rest hlen hv
    have hstack : pairsFlat.reverse ++ rem :: rest =
        (pairsFlat.reverse ++ [rem]) ++ rest := by simp
    have hlen2 : (pairsFlat.reverse ++ [rem]).length = arity * 2 + 1 := by
      simp [hlen, Nat.mul_comm]
    simp only [applyConsume, replaceTopSlice, hstack, if_true]
    rw [if_neg (by simp; omega)]
    rw [List.take_left' hlen2, List.drop_left' hlen2]
    simp [AnnProc.tryIntoVar, hv, Proc.tryIntoVar, expectE, eBind_ok,
      List.reverse_append]
  case remNotVar =>
    intro arity span pairsFlat rem rest hlen hv
    have hstack : pairsFlat.reverse ++ rem :: rest =
        (pairsFlat.reverse ++ [rem]) ++ rest := by simp
    have hlen2 : (pairsFlat.reverse ++ [rem]).length = arity * 2 + 1 := by
      simp [hlen, Nat.mul_comm]
    simp only [applyConsume, replaceTopSlice, hstack, if_true]
    rw [if_neg (by simp; omega)]
    rw [List.take_left' hlen2, List.drop_left' hlen2]
    have hbad : rem.proc.tryIntoVar = .error
        "attempt to convert a non-variable to a var" := by
      cases hp : rem.proc <;> first
        | rfl
        | (exact absurd rfl (hp ▸ hv _))
    simp [AnnProc.tryIntoVar, hbad, expectE, eBind_error,
      List.reverse_append]
  case noRem =>
    intro arity span pairsFlat rest hlen
    have hlen2 : pairsFlat.reverse.length = arity * 2 := by
      simp [hlen, Nat.mul_comm]
    simp only [applyConsume, replaceTopSlice, Bool.false_eq_true, if_false,
      Nat.add_zero]
    rw [if_neg (by simp; omega)]
    rw [List.take_left' hlen2, List.drop_left' hlen2]
    simp [eBind_ok]

/-- Witness for C7: all four branches applied at a concrete one-pair map
with remainder `{1 : 2, ...rest}`. -/
theorem c7_map_flat_batch_witness :
    classify (mkMapCollNode (sp 1 1 1 25) (sp 1 1 1 25)
        [(sp 1 2 1 7, leaf .longLiteral (sp 1 2 1 3) "1",
          leaf .longLiteral (sp 1 6 1 7) "2")]
        (leaf .var (sp 1 19 1 23) "rest")) ⟨[], [], []⟩ =
      .ok (⟨[],
        [K.evalDelayed ((leaf .var (sp 1 19 1 23) "rest").withField
            "remainder"),
         K.evalDelayed ((leaf .longLiteral (sp 1 2 1 3) "1").withField
            "key"),
         K.evalDelayed ((leaf .longLiteral (sp 1 6 1 7) "2").withField
            "value"),
         K.consumeMap 1 true (sp 1 1 1 25)], []⟩, none) ∧
    applyConsume (.consumeMap 1 true (sp 1 1 1 25))
        ([AnnProc.mk (.longLiteral 1) (sp 1 2 1 3),
          AnnProc.mk (.longLiteral 2) (sp 1 6 1 7)].reverse ++
          AnnProc.mk (.procVar (.id ⟨"rest", ⟨1, 19⟩⟩))
            (sp 1 19 1 23) :: []) =
      .ok [AnnProc.mk (.collection (.mapC
        [(AnnProc.mk (.longLiteral 1) (sp 1 2 1 3),
          AnnProc.mk (.longLiteral 2) (sp 1 6 1 7))]
        (some (.id ⟨"rest", ⟨1, 19⟩⟩)))) (sp 1 1 1 25)] ∧
    applyConsume (.consumeMap 1 true (sp 1 1 1 25))
        ([AnnProc.mk (.longLiteral 1) (sp 1 2 1 3),
          AnnProc.mk (.longLiteral 2) (sp 1 6 1 7)].reverse ++
          AnnProc.mk .nil (sp 1 19 1 23) :: []) =
      .error (.expectFail "expected a var") ∧
    applyConsume (.consumeMap 1 false (sp 1 1 1 25))
        ([AnnProc.mk (.longLiteral 1) (sp 1 2 1 3),
          AnnProc.mk (.longLiteral 2) (sp 1 6 1 7)].reverse ++ []) =
      .ok [AnnProc.mk (.collection (.mapC
        [(AnnProc.mk (.longLiteral 1) (sp 1 2 1 3),
          AnnProc.mk (.longLiteral 2) (sp 1 6 1 7))] none)) (sp 1 1 1 25)] :=
  ⟨c7_map_flat_batch.1 (sp 1 1 1 25) (sp 1 1 1 25)
      [(sp 1 2 1 7, leaf .longLiteral (sp 1 2 1 3) "1",
        leaf .longLiteral (sp 1 6 1 7) "2")]
      (leaf .var (sp 1 19 1 23) "rest") ⟨[], [], []⟩ rfl rfl,
   c7_map_flat_batch.2.1 1 (sp 1 1 1 25)
      [AnnProc.mk (.longLiteral 1) (sp 1 2 1 3),
       AnnProc.mk (.longLiteral 2) (sp 1 6 1 7)]
      (AnnProc.mk (.procVar (.id ⟨"rest", ⟨1, 19⟩⟩)) (sp 1 19 1 23))
      (.id ⟨"rest", ⟨1, 19⟩⟩) [] rfl rfl,
   c7_map_flat_batch.2.2.1 1 (sp 1 1 1 25)
      [AnnProc.mk (.longLiteral 1) (sp 1 2 1 3),
       AnnProc.mk (.longLiteral 2) (sp 1 6 1 7)]
      (AnnProc.mk .nil (sp 1 19 1 23)) [] rfl
      (fun _ h => Proc.noConfusion h),
   c7_map_flat_batch.2.2.2 1 (sp 1 1 1 25)
      [AnnProc.mk (.longLiteral 1) (sp 1 2 1 3),
       AnnProc.mk (.longLiteral 2) (sp 1 6 1 7)] [] rfl⟩

theorem charListLe_cons_iff (x y : Char) (xs ys : List Char) :
    charListLe (x :: xs) (y :: ys) = true ↔
      (x < y ∨ (x = y ∧ charListLe xs ys = true)) := by
  simp only [charListLe]
  split_ifs with h1 h2
  · simp [h1]
  · constructor
    · intro hf; exact absurd hf (by simp)
    · rintro (hlt | ⟨rfl, _⟩)
      · exact absurd hlt h1
      · exact absurd h2 (lt_irrefl x)
  · have hxy : x = y := le_antisymm (le_of_not_lt h2) (le_of_not_lt h1)
    subst hxy
    simp [lt_irrefl]

theorem charListLe_total : ∀ a b : List Char,
    charListLe a b = true ∨ charListLe b a = true
  | [], _ => .inl rfl
  | _ :: _, [] => .inr rfl
  | x :: xs, y :: ys => by
    rcases lt_trichotomy x y with hlt | heq | hgt
    · exact .inl ((charListLe_cons_iff x y xs ys).mpr (.inl hlt))
    · subst heq
      rcases charListLe_total xs ys with h | h
      · exact .inl ((charListLe_cons_iff x x xs ys).mpr (.inr ⟨rfl, h⟩))
      · exact .inr ((charListLe_cons_iff x x ys xs).mpr (.inr ⟨rfl, h⟩))
    · exact .inr ((charListLe_cons_iff y x ys xs).mpr (.inl hgt))

theorem charListLe_trans : ∀ a b c : List Char,
    charListLe a b = true → charListLe b c = true → charListLe a c = true
  | [], _, _, _, _ => rfl
  | _ :: _, [], _, h1, _ => by simp [charListLe] at h1
  | _ :: _, _ :: _, [], _, h2 => by simp [charListLe] at h2
  | x :: xs, y :: ys, z :: zs, h1, h2 => by
    rw [charListLe_cons_iff] at h1 h2 ⊢
    rcases h1 with hx | ⟨heq1, hx⟩ <;> rcases h2 with hy | ⟨heq2, hy⟩
    · exact .inl (lt_trans hx hy)
    · exact .inl (heq2 ▸ hx)
    · exact .inl (by rw [heq1]; exact hy)
    · exact .inr ⟨heq1.trans heq2, charListLe_trans xs ys zs hx hy⟩

theorem charListLe_antisymm : ∀ a b : List Char,
    charListLe a b = true → charListLe b a = true → a = b
  | [], [], _, _ => rfl
  | [], _ :: _, _, h2 => by simp [charListLe] at h2
  | _ :: _, [], h1, _ => by simp [charListLe] at h1
  | x :: xs, y :: ys, h1, h2 => by
    rw [charListLe_cons_iff] at h1 h2
    rcases h1 with hx | ⟨heq1, hx⟩ <;> rcases h2 with hy | ⟨heq2, hy⟩
    · exact absurd hy (lt_asymm hx)
    · exact absurd hx (by rw [heq2]; exact lt_irrefl x)
    · exact absurd hy (by rw [heq1]; exact lt_irrefl y)
    · rw [heq1, charListLe_antisymm xs ys hx hy]

theorem strLeB_total (a b : String) :
    strLeB a b = true ∨ strLeB b a = true :=
  charListLe_total a.data b.data

theorem strLeB_trans (a b c : String) (h1 : strLeB a b = true)
    (h2 : strLeB b c = true) : strLeB a c = true :=
  charListLe_trans a.data b.data c.data h1 h2

theorem strLeB_antisymm (a b : String) (h1 : strLeB a b = true)
    (h2 : strLeB b a = true) : a = b := by
  cases a; cases b
  exact congrArg String.mk (charListLe_antisymm _ _ h1 h2)

/-- The name-order relation used by the declaration sort. -/
def declLeB (a b : NameDecl) : Bool := strLeB a.id.name b.id.name

theorem insertDecl_perm (d : NameDecl) : ∀ l : List NameDecl,
    (insertDecl d l).Perm (d :: l)
  | [] => List.Perm.refl _
  | e :: es => by
    unfold insertDecl
    split
    · exact List.Perm.refl _
    · exact ((insertDecl_perm d es).cons e).trans (List.Perm.swap d e es)

theorem sortDecls_perm : ∀ l : List NameDecl, (sortDecls l).Perm l
  | [] => List.Perm.refl _
  | d :: ds =>
    (insertDecl_perm d (sortDecls ds)).trans ((sortDecls_perm ds).cons d)

theorem pairwise_insertDecl (d : NameDecl) : ∀ l : List NameDecl,
    l.Pairwise (fun a b => declLeB a b = true) →
    (insertDecl d l).Pairwise (fun a b => declLeB a b = true)
  | [], _ => by
    unfold insertDecl
    exact List.Pairwise.cons (fun x h => absurd h (List.not_mem_nil x))
      List.Pairwise.nil
  | e :: es, hp => by
    unfold insertDecl
    rcases List.pairwise_cons.mp hp with ⟨hle, hes⟩
    split
    · rename_i hde
      refine List.pairwise_cons.mpr ⟨?_, hp⟩
      intro x hx
      rcases List.mem_cons.mp hx with rfl | hx
      · exact hde
      · exact strLeB_trans _ _ _ hde (hle x hx)
    · rename_i hde
      have hed : declLeB e d = true := by
        rcases strLeB_total d.id.name e.id.name with h | h
        · exact absurd h hde
        · exact h
      refine List.pairwise_cons.mpr ⟨?_, pairwise_insertDecl d es hes⟩
      intro x hx
      have hx' := (insertDecl_perm d es).mem_iff.mp hx
      rcases List.mem_cons.mp hx' with rfl | hx'
      · exact hed
      · exact hle x hx'

theorem sortDecls_sorted : ∀ l : List NameDecl,
    (sortDecls l).Pairwise (fun a b => declLeB a b = true)
  | [] => by simp [sortDecls]
  | d :: ds => pairwise_insertDecl d (sortDecls ds) (sortDecls_sorted ds)

theorem adjacentDup_some_spec : ∀ (l : List NameDecl) (d1 d2 : NameDecl),
    adjacentDup l = some (d1, d2) →
    d1 ∈ l ∧ d2 ∈ l ∧ d1.id.name = d2.id.name
  | [], _, _, h => Option.noConfusion h
  | [_], _, _, h => Option.noConfusion h
  | a :: b :: rest, d1, d2, h => by
    rw [adjacentDup] at h
    split at h
    · rename_i heq
      have hh : (a, b) = (d1, d2) := Option.some.inj h
      have ha : a = d1 := congrArg Prod.fst hh
      have hb : b = d2 := congrArg Prod.snd hh
      subst ha
      subst hb
      refine ⟨List.mem_cons_self .., List.mem_cons_of_mem _
        (List.mem_cons_self ..), ?_⟩
      exact eq_of_beq heq
    · obtain ⟨h1, h2, h3⟩ := adjacentDup_some_spec (b :: rest) d1 d2 h
      exact ⟨List.mem_cons_of_mem _ h1, List.mem_cons_of_mem _ h2, h3⟩

theorem adjacentDup_none_pairwise : ∀ l : List NameDecl,
    l.Pairwise (fun a b => declLeB a b = true) →
    adjacentDup l = none →
    l.Pairwise (fun a b => a.id.name ≠ b.id.name)
  | [], _, _ => by simp
  | [d], _, _ => by simp
  | d :: e :: rest, hsorted, hnone => by
    rw [adjacentDup] at hnone
    split at hnone
    · exact absurd hnone (by simp)
    · rename_i hne
      have hne' : d.id.name ≠ e.id.name := by simpa using hne
      rcases List.pairwise_cons.mp hsorted with ⟨hle, htail⟩
      have ihp := adjacentDup_none_pairwise (e :: rest) htail hnone
      refine List.pairwise_cons.mpr ⟨?_, ihp⟩
      intro x hx
      rcases List.mem_cons.mp hx with rfl | hx
      · exact hne'
      · intro hdx
        rcases List.pairwise_cons.mp htail with ⟨hle2, _⟩
        have h1 : strLeB d.id.name e.id.name = true :=
          hle e (List.mem_cons_self ..)
        have h2 : strLeB e.id.name x.id.name = true := hle2 x hx
        rw [← hdx] at h2
        exact hne' (strLeB_antisymm _ _ h1 h2)

theorem sourcePos_ltB_asymm (a b : SourcePos)
    (h : SourcePos.ltB a b = true) : SourcePos.ltB b a = false := by
  unfold SourcePos.ltB at h ⊢
  simp only [Bool.or_eq_true, Bool.and_eq_true, decide_eq_true_eq,
    beq_iff_eq] at h
  simp only [Bool.or_eq_false_iff, Bool.and_eq_false_iff,
    decide_eq_false_iff_not, Nat.not_lt, beq_eq_false_iff_ne, ne_eq]
  omega

theorem newDupError_of_none (decls : List NameDecl)
    (hadj : adjacentDup (sortDecls decls) = none) :
    newDupError decls = none := by
  unfold newDupError
  rw [hadj]

theorem newDupError_of_none_witness :
    adjacentDup (sortDecls []) = none ∧ newDupError [] = none :=
  ⟨rfl, newDupError_of_none [] rfl⟩

theorem newDupError_of_some (decls : List NameDecl) (d1 d2 : NameDecl)
    (hadj : adjacentDup (sortDecls decls) = some (d1, d2)) :
    newDupError decls =
      (if SourcePos.ltB d2.id.pos d1.id.pos then
        some (.duplicateNameDecl d2.id.pos d1.id.pos)
      else
        some (.duplicateNameDecl d1.id.pos d2.id.pos)) := by
  unfold newDupError
  rw [hadj]

/-- Claim C8: (a) whenever a `new`'s declarations contain two
declarations with the same identifier, a duplicate error is produced;
(b) every produced `DuplicateNameDecl` carries the positions of two
same-named declarations, normalized so the first is not textually after
the second, regardless of the declarations' input order; and (c) for the
concrete `new a, b, a in { Nil }` the error reports the first `a` (col 5)
as `first` and the second `a` (col 11) as `second` while the `New` tree is
still fully constructed. -/
theorem c8_duplicate_name_decl :
    (∀ decls : List NameDecl,
      ¬ decls.Pairwise (fun a b => a.id.name ≠ b.id.name) →
      (newDupError decls).isSome) ∧
    (∀ (decls : List NameDecl) (f s : SourcePos),
      newDupError decls = some (.duplicateNameDecl f s) →
      SourcePos.ltB s f = false ∧
      ∃ d1 ∈ decls, ∃ d2 ∈ decls, d1.id.name = d2.id.name ∧
        ((f = d1.id.pos ∧ s = d2.id.pos) ∨
         (f = d2.id.pos ∧ s = d1.id.pos))) ∧
    nodeToAst 40 newDupCst =
      .ok (some (.fail
        ⟨some (.mk (.newP
            [⟨⟨"a", ⟨1, 5⟩⟩, none⟩, ⟨⟨"a", ⟨1, 11⟩⟩, none⟩,
             ⟨⟨"b", ⟨1, 8⟩⟩, none⟩]
            (.mk .nil (sp 1 18 1 21))) (sp 1 1 1 23)),
         [⟨.duplicateNameDecl ⟨1, 5⟩ ⟨1, 11⟩, sp 1 5 1 12⟩]⟩)) := by
  refine ⟨?emit, ?sound, rfl⟩
  case emit =>
    intro decls hdup
    cases hadj : adjacentDup (sortDecls decls) with
    | some p =>
      obtain ⟨d1, d2⟩ := p
      rw [newDupError_of_some decls d1 d2 hadj]
      split <;> rfl
    | none =>
      exfalso
      apply hdup
      have hpw := adjacentDup_none_pairwise (sortDecls decls)
        (sortDecls_sorted decls) hadj
      have hsym : ∀ {x y : NameDecl},
          x.id.name ≠ y.id.name → y.id.name ≠ x.id.name :=
        fun h he => h he.symm
      exact (List.Perm.pairwise_iff hsym (sortDecls_perm decls)).mp hpw
  case sound =>
    intro decls f s h
    cases hadj : adjacentDup (sortDecls decls) with
    | none =>
      rw [newDupError_of_none decls hadj] at h
      exact Option.noConfusion h
    | some p =>
      obtain ⟨d1, d2⟩ := p
      rw [newDupError_of_some decls d1 d2 hadj] at h
      obtain ⟨hm1, hm2, hname⟩ := adjacentDup_some_spec _ _ _ hadj
      have hm1' := (sortDecls_perm decls).mem_iff.mp hm1
      have hm2' := (sortDecls_perm decls).mem_iff.mp hm2
      split at h
      · rename_i hlt
        have hinj := ParsingError.duplicateNameDecl.inj (Option.some.inj h)
        obtain ⟨rfl, rfl⟩ := hinj
        exact ⟨sourcePos_ltB_asymm _ _ hlt,
          d1, hm1', d2, hm2', hname, .inr ⟨rfl, rfl⟩⟩
      · rename_i hlt
        have hinj := ParsingError.duplicateNameDecl.inj (Option.some.inj h)
        obtain ⟨rfl, rfl⟩ := hinj
        exact ⟨by simpa using hlt,
          d1, hm1', d2, hm2', hname, .inl ⟨rfl, rfl⟩⟩

/-- Witness for C8: the declaration list of `new a, b, a in { Nil }`
(`a` at col 5, `b` at col 8, `a` at col 11) is not duplicate-free, the
duplicate check fires, and the error it produces reports the col-5
occurrence first and the col-11 occurrence second. -/
theorem c8_duplicate_name_decl_witness :
    (¬ ([⟨⟨"a", ⟨1, 5⟩⟩, none⟩, ⟨⟨"b", ⟨1, 8⟩⟩, none⟩,
         ⟨⟨"a", ⟨1, 11⟩⟩, none⟩] : List NameDecl).Pairwise
        (fun a b => a.id.name ≠ b.id.name)) ∧
    (newDupError [⟨⟨"a", ⟨1, 5⟩⟩, none⟩, ⟨⟨"b", ⟨1, 8⟩⟩, none⟩,
         ⟨⟨"a", ⟨1, 11⟩⟩, none⟩]).isSome ∧
    newDupError [⟨⟨"a", ⟨1, 5⟩⟩, none⟩, ⟨⟨"b", ⟨1, 8⟩⟩, none⟩,
         ⟨⟨"a", ⟨1, 11⟩⟩, none⟩] =
      some (.duplicateNameDecl ⟨1, 5⟩ ⟨1, 11⟩) ∧
    (SourcePos.ltB ⟨1, 11⟩ ⟨1, 5⟩ = false ∧
      ∃ d1 ∈ ([⟨⟨"a", ⟨1, 5⟩⟩, none⟩, ⟨⟨"b", ⟨1, 8⟩⟩, none⟩,
         ⟨⟨"a", ⟨1, 11⟩⟩, none⟩] : List NameDecl),
      ∃ d2 ∈ ([⟨⟨"a", ⟨1, 5⟩⟩, none⟩, ⟨⟨"b", ⟨1, 8⟩⟩, none⟩,
         ⟨⟨"a", ⟨1, 11⟩⟩, none⟩] : List NameDecl),
      d1.id.name = d2.id.name ∧
        (((⟨1, 5⟩ : SourcePos) = d1.id.pos ∧
          (⟨1, 11⟩ : SourcePos) = d2.id.pos) ∨
         ((⟨1, 5⟩ : SourcePos) = d2.id.pos ∧
          (⟨1, 11⟩ : SourcePos) = d1.id.pos))) :=
  ⟨by decide,
   c8_duplicate_name_decl.1 _ (by decide),
   rfl,
   c8_duplicate_name_decl.2.1 _ ⟨1, 5⟩ ⟨1, 11⟩ rfl⟩

end Rholang
